import Mathlib

/-!
Verification development for the NeoStats booking-assistant repository.

Shallow embedding of the modules the claims concern:
  * `time_utils.normalize_time`   (time parsing; Python exceptions are
    modelled with `Except Unit`, `Except.error ()` standing for an uncaught
    `ValueError`)
  * `booking_logic._parse_date` and `booking_logic.extract_booking_state`
  * `slot_engine.check_availability`, `book_slot`, `find_next_available`,
    `cancel_booking`
  * `bookings_store.find_bookings`, `add_booking`, `remove_booking`
    (the store is modelled as the list of persisted records; the nondeterministic
    uuid and timestamp are passed in as parameters)
  * `explainability.compute_explainability_score`
  * `pricing.calculate_price`

Python floats are modelled as exact rationals (`ℚ`); `round(x, 2)` is modelled
as exact round-half-to-even on rationals.  Python strings are Lean `String`s,
with the ASCII case-folding the source relies on.  Regular expressions used by
the source are modelled as explicit leftmost-match scanners with the same
greedy/backtracking behaviour on the concrete patterns involved.
-/

/-! ### Basic character/string helpers (Python semantics) -/

/-- Python truthiness of an optional string: `None` and `""` are falsy. -/
def truthyS : Option String → Bool
  | none => false
  | some s => s ≠ ""

/-- ASCII lower-casing of a character (the source only manipulates ASCII). -/
def lowerC (c : Char) : Char :=
  if 'A' ≤ c ∧ c ≤ 'Z' then Char.ofNat (c.toNat + 32) else c

/-- ASCII upper-casing of a character. -/
def upperC (c : Char) : Char :=
  if 'a' ≤ c ∧ c ≤ 'z' then Char.ofNat (c.toNat - 32) else c

/-- `str.lower()` restricted to ASCII. -/
def asciiLower (s : String) : String := String.mk (s.toList.map lowerC)

/-- `str.upper()` restricted to ASCII. -/
def asciiUpper (s : String) : String := String.mk (s.toList.map upperC)

/-- Python regex `\s` on ASCII. -/
def isSpaceC (c : Char) : Bool :=
  c = ' ' ∨ c = '\t' ∨ c = '\n' ∨ c = '\x0d' ∨ c = '\x0b' ∨ c = '\x0c'

/-- ASCII digit. -/
def isDigitC (c : Char) : Bool := '0' ≤ c ∧ c ≤ '9'

/-- ASCII letter. -/
def isAlphaC (c : Char) : Bool := ('a' ≤ c ∧ c ≤ 'z') ∨ ('A' ≤ c ∧ c ≤ 'Z')

/-- Python regex `\w` on ASCII. -/
def isWordC (c : Char) : Bool := isAlphaC c ∨ isDigitC c ∨ c = '_'

/-- Numeric value of an ASCII digit. -/
def dval (c : Char) : Nat := c.toNat - '0'.toNat

/-- Length of the maximal prefix satisfying `p`. -/
def cWhile (p : Char → Bool) : List Char → Nat
  | [] => 0
  | c :: t => if p c then cWhile p t + 1 else 0

/-- Greedy: take up to `n` leading characters satisfying `p`. -/
def takeUpTo (p : Char → Bool) : Nat → List Char → List Char
  | 0, _ => []
  | _, [] => []
  | n + 1, c :: t => if p c then c :: takeUpTo p n t else []

/-- Python `needle in hay` for strings (substring containment). -/
def hasTok (hay needle : List Char) : Bool :=
  match hay with
  | [] => needle.isEmpty
  | _ :: t => needle.isPrefixOf hay || hasTok t needle

/-- Python `str.strip()` on a list of characters. -/
def stripWs (l : List Char) : List Char :=
  ((l.dropWhile isSpaceC).reverse.dropWhile isSpaceC).reverse

/-- Zero-padded two-digit rendering (`%02d`, also `%M`). -/
def pad2 (n : Nat) : String := if n < 10 then "0" ++ toString n else toString n

/-- Zero-padded four-digit rendering (`%04d`, the year of `isoformat`). -/
def pad4 (n : Nat) : String :=
  if n < 10 then "000" ++ toString n
  else if n < 100 then "00" ++ toString n
  else if n < 1000 then "0" ++ toString n
  else toString n

/-! ### Calendar dates (`datetime.date`) -/

/-- A Gregorian calendar date, as `datetime.date`. -/
structure PyDate where
  y : Nat
  m : Nat
  d : Nat
deriving DecidableEq, Repr

/-- Gregorian leap-year rule. -/
def isLeap (y : Nat) : Bool := (y % 4 = 0 ∧ y % 100 ≠ 0) ∨ y % 400 = 0

/-- Days in a month. -/
def daysInMonth (y m : Nat) : Nat :=
  if m = 2 then (if isLeap y then 29 else 28)
  else if m = 4 ∨ m = 6 ∨ m = 9 ∨ m = 11 then 30
  else 31

/-- Validity check performed by the `datetime.date` constructor. -/
def validDate (y m d : Nat) : Bool :=
  1 ≤ y ∧ y ≤ 9999 ∧ 1 ≤ m ∧ m ≤ 12 ∧ 1 ≤ d ∧ d ≤ daysInMonth y m

/-- `date + timedelta(days=1)`. -/
def nextDay (dt : PyDate) : PyDate :=
  if dt.d < daysInMonth dt.y dt.m then ⟨dt.y, dt.m, dt.d + 1⟩
  else if dt.m < 12 then ⟨dt.y, dt.m + 1, 1⟩
  else ⟨dt.y + 1, 1, 1⟩

/-- `date.isoformat()`. -/
def isoformat (dt : PyDate) : String := pad4 dt.y ++ "-" ++ pad2 dt.m ++ "-" ++ pad2 dt.d

/-! ### `time_utils.normalize_time`

Model of the two regex searches (leftmost match, greedy with backtracking)
and of the `datetime.time` constructor, which raises `ValueError` on an
out-of-range hour or minute.  An uncaught exception is `Except.error ()`. -/

/-- Tail `\s*(am|pm)\b` of the 12-hour pattern; returns whether the meridiem is PM. -/
def t12Suffix (l : List Char) : Option Bool :=
  let r := l.drop (cWhile isSpaceC l)
  match r with
  | 'a' :: 'm' :: rest =>
      (match rest with
       | [] => some false
       | c :: _ => if isWordC c then none else some false)
  | 'p' :: 'm' :: rest =>
      (match rest with
       | [] => some true
       | c :: _ => if isWordC c then none else some true)
  | _ => none

/-- Tail `(?::(\d{2}))?\s*(am|pm)\b`: optional minutes then meridiem.
Returns (minute, isPM). -/
def t12Tail (l : List Char) : Option (Nat × Bool) :=
  let withColon : Option (Nat × Bool) :=
    match l with
    | ':' :: a :: b :: rest =>
        if isDigitC a ∧ isDigitC b then
          (t12Suffix rest).map (fun pm => (10 * dval a + dval b, pm))
        else none
    | _ => none
  match withColon with
  | some r => some r
  | none => (t12Suffix l).map (fun pm => (0, pm))

/-- Attempt of `(\d{1,2})(?::(\d{2}))?\s*(am|pm)\b` at the current position
(greedy: two digits before one).  Returns (hour, minute, isPM). -/
def t12AtPos (l : List Char) : Option (Nat × Nat × Bool) :=
  match l with
  | [] => none
  | a :: rest =>
      if isDigitC a then
        let try2 : Option (Nat × Nat × Bool) :=
          match rest with
          | b :: rest2 =>
              if isDigitC b then
                (t12Tail rest2).map (fun p => (10 * dval a + dval b, p.1, p.2))
              else none
          | [] => none
        match try2 with
        | some r => some r
        | none => (t12Tail rest).map (fun p => (dval a, p.1, p.2))
      else none

/-- `re.search` for `\b(\d{1,2})(?::(\d{2}))?\s*(am|pm)\b`: scan positions left
to right; `w` records whether the previous character is a word character
(the `\b` context; the first matched character is a digit). -/
def search12 (w : Bool) : List Char → Option (Nat × Nat × Bool)
  | [] => none
  | c :: t =>
      let here := if w then none else t12AtPos (c :: t)
      match here with
      | some r => some r
      | none => search12 (isWordC c) t

/-- Tail `([0-5]\d)\b` of the 24-hour pattern. -/
def t24Min (l : List Char) : Option Nat :=
  match l with
  | a :: b :: rest =>
      if ('0' ≤ a ∧ a ≤ '5') ∧ isDigitC b then
        match rest with
        | [] => some (10 * dval a + dval b)
        | c :: _ => if isWordC c then none else some (10 * dval a + dval b)
      else none
  | _ => none

/-- Attempt of `([01]?\d|2[0-3]):([0-5]\d)\b` at the current position, with the
regex alternation order (`[01]?\d` with the optional digit present, then
absent, then `2[0-3]`). -/
def t24AtPos (l : List Char) : Option (Nat × Nat) :=
  match l with
  | [] => none
  | a :: rest =>
      if isDigitC a then
        let b1 : Option (Nat × Nat) :=
          match rest with
          | b :: ':' :: r2 =>
              if (a = '0' ∨ a = '1') ∧ isDigitC b then
                (t24Min r2).map (fun mn => (10 * dval a + dval b, mn))
              else none
          | _ => none
        let b2 : Option (Nat × Nat) :=
          match rest with
          | ':' :: r2 => (t24Min r2).map (fun mn => (dval a, mn))
          | _ => none
        let b3 : Option (Nat × Nat) :=
          match rest with
          | b :: ':' :: r2 =>
              if a = '2' ∧ ('0' ≤ b ∧ b ≤ '3') then
                (t24Min r2).map (fun mn => (10 * dval a + dval b, mn))
              else none
          | _ => none
        match b1 with
        | some r => some r
        | none => match b2 with
          | some r => some r
          | none => b3
      else none

/-- `re.search` for `\b([01]?\d|2[0-3]):([0-5]\d)\b`. -/
def search24 (w : Bool) : List Char → Option (Nat × Nat)
  | [] => none
  | c :: t =>
      let here := if w then none else t24AtPos (c :: t)
      match here with
      | some r => some r
      | none => search24 (isWordC c) t

/-- `datetime.time(hour, minute)` followed by `strftime("%I:%M %p").lstrip("0")`.
The constructor raises `ValueError` (here `Except.error ()`) when the hour or
minute is out of range. -/
def mkTimeStr (h m : Nat) : Except Unit String :=
  if h ≤ 23 ∧ m ≤ 59 then
    let h12 := if h % 12 = 0 then 12 else h % 12
    .ok (toString h12 ++ ":" ++ pad2 m ++ (if h < 12 then " AM" else " PM"))
  else .error ()

/-- `time_utils.normalize_time`.  `Except.error ()` models an uncaught
`ValueError` escaping the function. -/
def normalize_time (text : String) : Except Unit (Option String) :=
  if text = "" then .ok none
  else
    let l := (asciiLower text).toList
    match search12 false l with
    | some (h, mn, pm) =>
        let h2 := if pm ∧ h ≠ 12 then h + 12 else if (¬ pm) ∧ h = 12 then 0 else h
        match mkTimeStr h2 mn with
        | .ok s => .ok (some s)
        | .error e => .error e
    | none =>
        match search24 false l with
        | some (h, mn) =>
            match mkTimeStr h mn with
            | .ok s => .ok (some s)
            | .error e => .error e
        | none => .ok none

/-! ### `booking_logic._parse_date` -/

/-- `strptime` field `%d`, i.e. the pattern `(3[01]|[12]\d|0[1-9]|[1-9])`,
required to consume exactly the given digit run. -/
def dayVal : List Char → Option Nat
  | [a] => if isDigitC a ∧ a ≠ '0' then some (dval a) else none
  | [a, b] =>
      if (a = '3' ∧ (b = '0' ∨ b = '1'))
          ∨ ((a = '1' ∨ a = '2') ∧ isDigitC b)
          ∨ (a = '0' ∧ isDigitC b ∧ b ≠ '0') then
        some (10 * dval a + dval b)
      else none
  | _ => none

/-- `strptime` field `%m`, i.e. the pattern `(1[0-2]|0[1-9]|[1-9])`. -/
def monthVal : List Char → Option Nat
  | [a] => if isDigitC a ∧ a ≠ '0' then some (dval a) else none
  | [a, b] =>
      if (a = '1' ∧ (b = '0' ∨ b = '1' ∨ b = '2'))
          ∨ (a = '0' ∧ isDigitC b ∧ b ≠ '0') then
        some (10 * dval a + dval b)
      else none
  | _ => none

/-- Value of a digit run. -/
def digitsVal (l : List Char) : Nat := l.foldl (fun acc c => 10 * acc + dval c) 0

/-- `strptime` field `%Y`: exactly four digits. -/
def yearY (l : List Char) : Option Nat :=
  if l.length = 4 then some (digitsVal l) else none

/-- `strptime` field `%y`: exactly two digits, pivot 69 (0-68 maps to 2000s). -/
def yearY2 (l : List Char) : Option Nat :=
  if l.length = 2 then
    some (if digitsVal l ≤ 68 then 2000 + digitsVal l else 1900 + digitsVal l)
  else none

/-- After the second `/` of `(\d{1,2}/\d{1,2}/\d{2,4})`: the year digits,
greedy up to four, at least two. -/
def slashYear (l : List Char) : Option (List Char) :=
  let yd := takeUpTo isDigitC 4 l
  if 2 ≤ yd.length then some yd else none

/-- Second number of the slash pattern (greedy two digits before one),
followed by `/` and the year. -/
def slashP2 (l : List Char) : Option (List Char × List Char) :=
  match l with
  | a :: b :: '/' :: r =>
      if isDigitC a ∧ isDigitC b then
        (slashYear r).map (fun yd => ([a, b], yd))
      else none
  | a :: '/' :: r =>
      if isDigitC a then (slashYear r).map (fun yd => ([a], yd)) else none
  | _ => none

/-- Attempt of `(\d{1,2}/\d{1,2}/\d{2,4})` at the current position. -/
def slashAt (l : List Char) : Option (List Char × List Char × List Char) :=
  match l with
  | a :: b :: '/' :: r =>
      if isDigitC a ∧ isDigitC b then
        (slashP2 r).map (fun p => ([a, b], p.1, p.2))
      else none
  | a :: '/' :: r =>
      if isDigitC a then (slashP2 r).map (fun p => ([a], p.1, p.2)) else none
  | _ => none

/-- `re.search` for `(\d{1,2}/\d{1,2}/\d{2,4})` (no boundary assertions). -/
def searchSlash : List Char → Option (List Char × List Char × List Char)
  | [] => none
  | c :: t =>
      match slashAt (c :: t) with
      | some r => some r
      | none => searchSlash t

/-- The `for fmt in ("%d/%m/%Y", "%d/%m/%y")` loop over the captured group:
each `strptime` failure (pattern or calendar validity) is caught. -/
def trySlashFormats (p1 p2 yd : List Char) (fmtY : List Char → Option Nat) :
    Option PyDate :=
  match dayVal p1, monthVal p2, fmtY yd with
  | some d, some m, some y => if validDate y m d then some ⟨y, m, d⟩ else none
  | _, _, _ => none

/-- Month-then-`-` part of `(\d{4}-\d{1,2}-\d{1,2})` (greedy two digits
before one, each followed by `-`), then the day digits (greedy up to two). -/
def isoTail (l : List Char) : Option (List Char × List Char) :=
  let with2 : Option (List Char × List Char) :=
    match l with
    | a :: b :: '-' :: r =>
        if isDigitC a ∧ isDigitC b then
          let dd := takeUpTo isDigitC 2 r
          if 1 ≤ dd.length then some ([a, b], dd) else none
        else none
    | _ => none
  match with2 with
  | some r => some r
  | none =>
    match l with
    | a :: '-' :: r =>
        if isDigitC a then
          let dd := takeUpTo isDigitC 2 r
          if 1 ≤ dd.length then some ([a], dd) else none
        else none
    | _ => none

/-- Attempt of `(\d{4}-\d{1,2}-\d{1,2})` at the current position. -/
def isoAt (l : List Char) : Option (List Char × List Char × List Char) :=
  match l with
  | a :: b :: c :: d :: '-' :: r =>
      if isDigitC a ∧ isDigitC b ∧ isDigitC c ∧ isDigitC d then
        (isoTail r).map (fun p => ([a, b, c, d], p.1, p.2))
      else none
  | _ => none

/-- `re.search` for `(\d{4}-\d{1,2}-\d{1,2})`. -/
def searchIso : List Char → Option (List Char × List Char × List Char)
  | [] => none
  | c :: t =>
      match isoAt (c :: t) with
      | some r => some r
      | none => searchIso t

/-- `strptime(captured, "%Y-%m-%d")` with the `ValueError` caught. -/
def tryIsoFormat (yd p2 p3 : List Char) : Option PyDate :=
  match yearY yd, monthVal p2, dayVal p3 with
  | some y, some m, some d => if validDate y m d then some ⟨y, m, d⟩ else none
  | _, _, _ => none

/-- `booking_logic._parse_date`.  The wall-clock `datetime.now().date()` is the
explicit `today` parameter.  Total: every `strptime` exception is caught. -/
def parse_date (today : PyDate) (text : String) : Option String :=
  let l := (asciiLower text).toList
  if hasTok l "today".toList then some (isoformat today)
  else if hasTok l "tomorrow".toList then some (isoformat (nextDay today))
  else
    let viaSlash : Option PyDate :=
      match searchSlash l with
      | some (p1, p2, yd) =>
          match trySlashFormats p1 p2 yd yearY with
          | some dt => some dt
          | none => trySlashFormats p1 p2 yd yearY2
      | none => none
    match viaSlash with
    | some dt => some (isoformat dt)
    | none =>
      match searchIso l with
      | some (yd, p2, p3) => (tryIsoFormat yd p2 p3).map isoformat
      | none => none

example : normalize_time "at 9am please" = .ok (some "9:00 AM") := rfl
example : normalize_time "around 14:30" = .ok (some "2:30 PM") := rfl
example : normalize_time "9:30 PM" = .ok (some "9:30 PM") := rfl
example : normalize_time "12am sharp" = .ok (some "12:00 AM") := rfl
example : normalize_time "no time here" = .ok none := rfl
example : normalize_time "13pm" = .error () := rfl
example : normalize_time "9:75pm" = .error () := rfl
example : normalize_time "1234 pm" = .ok none := rfl
example : parse_date ⟨2026, 10, 12⟩ "see you tomorrow" = some "2026-10-13" := by decide
example : parse_date ⟨2026, 10, 12⟩ "on 2099-01-01 ok" = some "2099-01-01" := by decide
example : parse_date ⟨2026, 10, 12⟩ "on 5/6/99" = some "1999-06-05" := by decide
example : parse_date ⟨2026, 10, 12⟩ "on 23/4/2024" = some "2024-04-23" := by decide
example : parse_date ⟨2026, 10, 12⟩ "on 31/2/2024" = none := by decide
example : parse_date ⟨2026, 10, 12⟩ "nothing" = none := by decide

/-! ### `bookings_store` and `slot_engine`

The persistent store is the ordered list of booking records.  `add_booking`
receives the freshly generated uuid and timestamp as parameters (they are
produced by `uuid4()` / `datetime.utcnow()` in the source). -/

/-- A persisted booking record (`meta` omitted: no claim concerns it). -/
structure Booking where
  id : String
  service : Option String
  date : Option String
  time : Option String
  location : Option String
  created_at : String
deriving DecidableEq, Repr

/-- One field-equality filter of `find_bookings`: a falsy argument
(`None` or `""`) disables the filter. -/
def fMatch (p : Option String) (field : Option String) : Bool :=
  match p with
  | none => true
  | some q => if q = "" then true else field = some q

/-- `bookings_store.find_bookings`. -/
def find_bookings (store : List Booking) (service date time : Option String) :
    List Booking :=
  store.filter (fun b => fMatch service b.service && fMatch date b.date && fMatch time b.time)

/-- `bookings_store.add_booking` (uuid and timestamp passed in). -/
def add_booking (newId createdAt : String)
    (service date time location : Option String) (store : List Booking) :
    Booking × List Booking :=
  let entry : Booking :=
    { id := newId, service := service, date := date, time := time,
      location := location, created_at := createdAt }
  (entry, store ++ [entry])

/-- `bookings_store.remove_booking`: deletes every record with the id,
returns whether anything was deleted, and the new store. -/
def remove_booking (bookingId : String) (store : List Booking) :
    Bool × List Booking :=
  let kept := store.filter (fun b => b.id ≠ bookingId)
  (kept.length < store.length, kept)

/-- `slot_engine.AVAILABLE_SLOTS` (the fixed per-service catalog). -/
def AVAILABLE_SLOTS : List (String × List String) :=
  [("spa", ["9:00 AM", "10:00 AM", "11:00 AM", "4:00 PM"]),
   ("salon", ["10:00 AM", "12:00 PM", "3:00 PM"]),
   ("facial", ["10:00 AM", "11:00 AM", "3:00 PM"]),
   ("dental", ["9:00 AM", "11:00 AM", "2:00 PM"]),
   ("doctor", ["9:00 AM", "1:00 PM", "6:00 PM"]),
   ("head spa", ["10:00 AM", "2:00 PM"]),
   ("hotel", ["Anytime"]),
   ("travel", ["Morning", "Evening"])]

/-- `service in AVAILABLE_SLOTS` / `AVAILABLE_SLOTS[service]`. -/
def catalog (service : String) : Option (List String) :=
  (AVAILABLE_SLOTS.find? (fun p => p.1 = service)).map (fun p => p.2)

/-- `slot_engine.check_availability`. -/
def check_availability (store : List Booking) (service : String)
    (date time : Option String) : Bool × List String :=
  match catalog service with
  | none => (true, ["Anytime"])
  | some slots =>
    if slots.contains "Anytime" then (true, slots)
    else if ¬ truthyS time then (true, slots)
    else
      let existing := find_bookings store (some service) date time
      if existing ≠ [] then
        (false, slots.filter (fun s => ¬ (some s = time)))
      else (true, slots)

/-- `slot_engine.book_slot`.  The first component is the outcome
(`Except.error ()` models the raised `ValueError`); the second is the store
after the call, unchanged on the error path. -/
def book_slot (store : List Booking) (newId createdAt : String)
    (service date time : String) (location : Option String) :
    Except Unit Booking × List Booking :=
  let av := check_availability store service (some date) (some time)
  if av.1 = false then (.error (), store)
  else
    let r := add_booking newId createdAt (some service) (some date) (some time) location store
    (.ok r.1, r.2)

/-- `slot_engine.find_next_available`. -/
def find_next_available (store : List Booking) (service : String) (date : String)
    (after_time : Option String) : Option (String × List String) :=
  match catalog service with
  | none => none
  | some slots =>
    (slots.find? (fun s =>
        ¬ (truthyS after_time ∧ after_time = some s)
          ∧ find_bookings store (some service) (some date) (some s) = [])).map
      (fun s => (s, slots))

/-- `slot_engine.cancel_booking` (delegates to `remove_booking`). -/
def cancel_booking (bookingId : String) (store : List Booking) :
    Bool × List Booking :=
  remove_booking bookingId store

example : (check_availability [] "spa" (some "2099-01-01") (some "9:00 AM")).1 = true := by decide
example : check_availability [] "yoga" (some "2099-01-01") (some "9:00 AM") = (true, ["Anytime"]) := by decide
example :
    (book_slot [] "b1" "t1" "spa" "2099-01-01" "9:00 AM" (some "bangalore")).1 =
      .ok { id := "b1", service := some "spa", date := some "2099-01-01",
            time := some "9:00 AM", location := some "bangalore", created_at := "t1" } := rfl
example :
    (check_availability
      (book_slot [] "b1" "t1" "spa" "2099-01-01" "9:00 AM" none).2
      "spa" (some "2099-01-01") (some "9:00 AM")).1 = false := by decide
example :
    (check_availability
      (cancel_booking "b1" (book_slot [] "b1" "t1" "spa" "2099-01-01" "9:00 AM" none).2).2
      "spa" (some "2099-01-01") (some "9:00 AM")).1 = true := by decide
example : find_next_available [] "salon" "2099-01-01" none = some ("10:00 AM", ["10:00 AM", "12:00 PM", "3:00 PM"]) := by decide

/-! ### `booking_logic.extract_booking_state`

The conversation is the list of the turns' `content` strings (the source reads
only `msg.get("content", "")`).  The wall clock (`datetime.now().date()`) is
the explicit `today` parameter.  The call to `slot_engine.find_next_available`
made inside the delegation post-pass sits in a `try/except`; it is passed in as
an `Except`-valued function `fna` so that the graceful-degradation branch is
part of the model (`fnaOf store` instantiates it with the real engine, which
never fails). -/

/-- `booking_logic.SERVICES`. -/
def SERVICES : List String :=
  ["hotel", "flight", "appointment", "spa", "salon", "head spa", "hospital",
   "doctor", "travel"]

/-- `booking_logic.CITIES`. -/
def CITIES : List String :=
  ["bangalore", "delhi", "mumbai", "chennai", "hyderabad", "mangalagiri",
   "vijayawada"]

/-- The delegation phrase list. -/
def DELEGATION_PHRASES : List String :=
  ["you decide", "you pick", "you choose", "book it", "do it", "go ahead",
   "surprise me", "anything works", "i don't care", "i dont care", "up to you",
   "whatever you think"]

/-- The fuzzy time-word table, in the source's insertion order. -/
def FUZZY_MAP : List (String × String) :=
  [("morning", "10:00 AM"), ("afternoon", "02:00 PM"), ("evening", "06:00 PM"),
   ("night", "08:00 PM"), ("noon", "12:00 PM"), ("after lunch", "02:00 PM"),
   ("before lunch", "11:30 AM")]

/-- The mutable state accumulated by `extract_booking_state`: the `state` dict,
the `confidences` dict (four fields), the `ambiguities` and explanation lists,
and the function-local `explicit_location` variable. -/
structure BState where
  service : Option String
  date : Option String
  time : Option String
  location : Option String
  intent : String
  delegated : Bool
  location_auto_selected : Bool
  service_auto_selected : Bool
  confS : ℚ
  confD : ℚ
  confT : ℚ
  confL : ℚ
  ambiguities : List String
  explanations : List String
  explicitLoc : Option String
deriving DecidableEq, Repr

/-- The initial state of `extract_booking_state`. -/
def initState : BState :=
  { service := none, date := none, time := none, location := none,
    intent := "book", delegated := false,
    location_auto_selected := false, service_auto_selected := false,
    confS := 0, confD := 0, confT := 0, confL := 0,
    ambiguities := [], explanations := [], explicitLoc := none }

/-- Capture of `in\s+([a-zA-Z ]{3,30})` after the literal `in`, trying the
greedy `\s+` lengths from longest to shortest (the character class of the
capture also accepts the space the quantifier gives back). -/
def inCap (l : List Char) : Nat → Option (List Char)
  | 0 => none
  | w + 1 =>
      let cap := takeUpTo (fun c => isAlphaC c ∨ c = ' ') 30 (l.drop (w + 1))
      if 3 ≤ cap.length then some cap else inCap l w

/-- `re.search` for `in\s+([a-zA-Z ]{3,30})` (leftmost occurrence of `in`
followed by a successful capture). -/
def searchInLoc : List Char → Option (List Char)
  | [] => none
  | c :: t =>
      let here :=
        if c = 'i' then
          match t with
          | 'n' :: r => inCap r (cWhile isSpaceC r)
          | _ => none
        else none
      match here with
      | some r => some r
      | none => searchInLoc t

/-- Step 1 of a turn: the `in <city>` pattern (commit a known city if location
is unset, otherwise stash the free-form candidate in `explicit_location`). -/
def stepLocPattern (st : BState) (text : List Char) : BState :=
  match searchInLoc text with
  | none => st
  | some cap =>
      let candidate := String.mk (stripWs cap)
      if CITIES.contains candidate then
        if ¬ truthyS st.location then
          { st with
            location := some candidate, confL := 0.9,
            explanations := st.explanations ++
              ["Location matched via pattern: " ++ candidate] }
        else st
      else
        { st with
          explicitLoc := some candidate,
          explanations := st.explanations ++
            ["Explicit location mentioned: " ++ candidate] }

/-- Step 2: delegation phrases. -/
def stepDeleg (st : BState) (text : List Char) : BState :=
  if DELEGATION_PHRASES.any (fun p => hasTok text p.toList) then
    { st with
      delegated := true,
      explanations := st.explanations ++
        ["User delegated decision-making to assistant"] }
  else st

/-- Step 3: intent keywords (cancel before modify; last match across turns wins). -/
def stepIntent (st : BState) (text : List Char) : BState :=
  if ["cancel", "cancelled", "delete"].any (fun w => hasTok text w.toList) then
    { st with intent := "cancel" }
  else if ["change", "modify", "reschedule"].any (fun w => hasTok text w.toList) then
    { st with intent := "modify" }
  else st

/-- Step 4: the service keyword loop (first match sets service, only if unset). -/
def stepService (st : BState) (text : List Char) : BState :=
  SERVICES.foldl
    (fun s svc =>
      if hasTok text svc.toList ∧ ¬ truthyS s.service then
        { s with
          service := some svc, confS := 0.95,
          explanations := s.explanations ++
            ["Service matched by keyword " ++ svc] }
      else s)
    st

/-- Step 4b: refinement of the generic `appointment` service. -/
def stepRefine (st : BState) (text : List Char) : BState :=
  if st.service = some "appointment" then
    if ["facial", "face", "skincare", "cleaning", "derma"].any
        (fun w => hasTok text w.toList) then
      { st with
        service := some "facial", confS := 0.9,
        explanations := st.explanations ++
          ["Mapped generic appointment to specific facial based on user text"] }
    else if ["dental", "dentist"].any (fun w => hasTok text w.toList) then
      { st with
        service := some "dental", confS := 0.9,
        explanations := st.explanations ++
          ["Mapped generic appointment to specific dental based on user text"] }
    else st
  else st

/-- Step 5: date detection (only if unset). -/
def stepDate (today : PyDate) (st : BState) (text : String) : BState :=
  if ¬ truthyS st.date then
    match parse_date today text with
    | some parsed =>
        { st with
          date := some parsed, confD := 0.9,
          explanations := st.explanations ++ ["Date parsed as " ++ parsed] }
    | none => st
  else st

/-- Step 6: time detection (exact first, then the fuzzy table; only if unset).
The unguarded `normalize_time` call can raise, so the step is `Except`-valued. -/
def stepTime (st : BState) (text : String) : Except Unit BState :=
  if ¬ truthyS st.time then
    match normalize_time text with
    | .error e => .error e
    | .ok (some tv) =>
        .ok { st with
          time := some tv, confT := 0.95,
          explanations := st.explanations ++ ["Time normalized to " ++ tv] }
    | .ok none =>
        match FUZZY_MAP.find? (fun p => hasTok (asciiLower text).toList p.1.toList) with
        | some (w, resolved) =>
            .ok { st with
              time := some resolved, confT := 0.7,
              explanations := st.explanations ++
                ["Fuzzy time " ++ w ++ " resolved to " ++ resolved] }
        | none => .ok st
  else .ok st

/-- Step 7: the known-city keyword loop (only if unset). -/
def stepCity (st : BState) (text : List Char) : BState :=
  CITIES.foldl
    (fun s city =>
      if hasTok text city.toList ∧ ¬ truthyS s.location then
        { s with
          location := some city, confL := 0.9,
          explanations := s.explanations ++ ["Location matched: " ++ city] }
      else s)
    st

/-- Processing of a single conversation turn (the body of the `for msg` loop). -/
def stepTurn (today : PyDate) (st : BState) (msg : String) : Except Unit BState :=
  let text := asciiLower msg
  let tl := text.toList
  let st1 := stepLocPattern st tl
  let st2 := stepDeleg st1 tl
  let st3 := stepIntent st2 tl
  let st4 := stepService st3 tl
  let st5 := stepRefine st4 tl
  let st6 := stepDate today st5 text
  match stepTime st6 text with
  | .error e => .error e
  | .ok st7 => .ok (stepCity st7 tl)

/-- The `for msg in messages` loop. -/
def processTurns (today : PyDate) : BState → List String → Except Unit BState
  | st, [] => .ok st
  | st, m :: rest =>
      match stepTurn today st m with
      | .error e => .error e
      | .ok st' => processTurns today st' rest

/-- Delegation default for the service field. -/
def ppService (st : BState) : BState :=
  if ¬ truthyS st.service then
    { st with
      service := some "facial", service_auto_selected := true,
      confS := 0.6,
      explanations := st.explanations ++
        ["Defaulted service to facial due to delegation"] }
  else st

/-- Delegation default for the date field. -/
def ppDate (today : PyDate) (st : BState) : BState :=
  if ¬ truthyS st.date then
    { st with
      date := some (isoformat today), confD := 0.6,
      explanations := st.explanations ++
        ["Defaulted date to " ++ isoformat today ++ " due to delegation"] }
  else st

/-- Delegation default for the time field: the `try/except` around the
`find_next_available` call, with the graceful static fallback. -/
def ppTime (fna : String → String → Except Unit (Option (String × List String)))
    (st : BState) : BState :=
  if ¬ truthyS st.time then
    if truthyS st.service then
      match fna (st.service.getD "") (st.date.getD "") with
      | .ok (some (chosen, _)) =>
          { st with
            time := some chosen, confT := 0.75,
            explanations := st.explanations ++
              ["Auto-selected next available slot " ++ chosen] }
      | .ok none =>
          { st with
            time := some "10:00 AM", confT := 0.6,
            explanations := st.explanations ++
              ["Defaulted time to 10:00 AM due to delegation (no available slots found)"] }
      | .error _ =>
          { st with
            time := some "10:00 AM", confT := 0.6,
            explanations := st.explanations ++
              ["Defaulted time to 10:00 AM due to delegation (slot lookup failed)"] }
    else
      { st with
        time := some "10:00 AM", confT := 0.6,
        explanations := st.explanations ++
          ["Defaulted time to 10:00 AM due to delegation"] }
  else st

/-- Delegation default for the location field. -/
def ppLoc (st : BState) : BState :=
  if ¬ truthyS st.location then
    if truthyS st.explicitLoc then
      { st with
        location := st.explicitLoc, confL := 0.8,
        explanations := st.explanations ++
          ["Used earlier mentioned location due to delegation"] }
    else
      { st with
        location := some (CITIES.headD ""),
        location_auto_selected := true, confL := 0.5,
        explanations := st.explanations ++
          ["Auto-selected location due to delegation"] }
  else st

/-- The delegation default post-pass (`if state.get("delegated"): ...`), the
four defaults in source order.  `fna` is the `find_next_available(service,
date)` call; its `Except` failure is absorbed by the source\'s `try/except`. -/
def postPass (fna : String → String → Except Unit (Option (String × List String)))
    (today : PyDate) (st : BState) : BState :=
  if st.delegated then ppLoc (ppTime fna (ppDate today (ppService st))) else st

/-- `booking_logic.extract_booking_state`. -/
def extract_booking_state
    (fna : String → String → Except Unit (Option (String × List String)))
    (today : PyDate) (messages : List String) : Except Unit BState :=
  match processTurns today initState messages with
  | .error e => .error e
  | .ok st => .ok (postPass fna today st)

/-- The availability lookup the source actually passes to the post-pass:
`find_next_available(service, date)` over the given store (it never raises
in this model, matching the pure Lean embedding of the engine). -/
def fnaOf (store : List Booking) :
    String → String → Except Unit (Option (String × List String)) :=
  fun s d => .ok (find_next_available store s d none)

/-- `extract_booking_state` as called by the application, with the real engine. -/
def extractRun (store : List Booking) (today : PyDate) (messages : List String) :
    Except Unit BState :=
  extract_booking_state (fnaOf store) today messages

/-! ### `explainability.compute_explainability_score`

The function accepts any state dict; the model takes the values of the
`confidences` dict as a list, the four slot fields, and the ambiguity list.
Python floats are exact rationals here, and `round(x, 2)` is exact
round-half-to-even. -/

/-- Round half to even, as Python `round` on an exact value. -/
def rhe (q : ℚ) : ℤ :=
  let f := ⌊q⌋
  if q - f < 1 / 2 then f
  else if 1 / 2 < q - f then f + 1
  else if f % 2 = 0 then f else f + 1

/-- Python `round(q, 2)`. -/
def round2 (q : ℚ) : ℚ := (rhe (q * 100) : ℚ) / 100

/-- The part of a booking-state record that `compute_explainability_score`
reads. -/
structure EState where
  confidences : List ℚ
  service : Option String
  date : Option String
  time : Option String
  location : Option String
  ambiguities : List String
deriving DecidableEq, Repr

/-- The four slot fields of a state, in the dict's iteration order. -/
def slotFields (st : EState) : List (Option String) :=
  [st.service, st.date, st.time, st.location]

/-- The breakdown dict returned by `compute_explainability_score`. -/
structure Breakdown where
  avg_confidence : ℚ
  ambiguity_count : Nat
  ambiguity_penalty_pct : ℚ
  missing_count : Nat
  missing_penalty_pct : ℚ
  score : ℚ
deriving DecidableEq, Repr

/-- `explainability.compute_explainability_score`. -/
def compute_explainability_score (st : EState) : Breakdown :=
  let avg_conf : ℚ :=
    if st.confidences = [] then 0 else st.confidences.sum / st.confidences.length
  let ambiguity_penalty : ℚ := min (st.ambiguities.length * (0.15 : ℚ)) 0.45
  let missing := (slotFields st).filter (fun v => ¬ truthyS v)
  let missing_penalty : ℚ := min (missing.length * (0.1 : ℚ)) 0.3
  let raw := avg_conf * (1 - ambiguity_penalty - missing_penalty)
  let score := max 0 (min 1 raw) * 100
  { avg_confidence := round2 (avg_conf * 100),
    ambiguity_count := st.ambiguities.length,
    ambiguity_penalty_pct := round2 (ambiguity_penalty * 100),
    missing_count := missing.length,
    missing_penalty_pct := round2 (missing_penalty * 100),
    score := round2 score }

/-- The score formula exactly as the spec words it (claim C8): average
confidence times one minus the two penalties, clamped to `[0, 1]`, scaled
to 100 — with no rounding step. -/
def specExplainabilityScore (st : EState) : ℚ :=
  let avgConf : ℚ :=
    if st.confidences = [] then 0 else st.confidences.sum / st.confidences.length
  let ambiguityPenalty : ℚ := min (0.15 * st.ambiguities.length) 0.45
  let missingPenalty : ℚ :=
    min (0.10 * ((slotFields st).filter (fun v => ¬ truthyS v)).length) 0.30
  max 0 (min 1 (avgConf * (1 - ambiguityPenalty - missingPenalty))) * 100

/-! ### `pricing.calculate_price`

The process-wide FX cache is the explicit `fxCache` parameter (`none` = cold
cache); no `FX_API_KEY` is configured, so a cold cache resolves to the demo
rate 82.0, which is what the source's `_get_rate` falls back to. -/

/-- The part of the `meta` dict that `calculate_price` reads.  `none` for the
whole record models a falsy `meta` (`None` or `{}`). -/
structure PMeta where
  loyalty_tier : Option String := none
  currency : Option String := none
deriving DecidableEq, Repr

/-- `pricing.BASE_PRICES`. -/
def BASE_PRICES : List (String × ℚ) :=
  [("spa", 50), ("salon", 40), ("doctor", 100), ("head spa", 60),
   ("facial", 27), ("dental", 80), ("hotel", 150), ("travel", 80),
   ("appointment", 30), ("flight", 200)]

/-- `BASE_PRICES.get(service, 50.0)`. -/
def basePrice (service : String) : ℚ :=
  ((BASE_PRICES.find? (fun p => p.1 = service)).map (fun p => p.2)).getD 50

/-- `pricing.INDIAN_CITIES`. -/
def INDIAN_CITIES : List String :=
  ["bangalore", "bengaluru", "delhi", "mumbai", "chennai", "hyderabad",
   "vijayawada", "mangalagiri", "kolkata", "pune", "ahmedabad"]

/-- `meta and meta.get("loyalty_tier") == "gold"`. -/
def metaGold : Option PMeta → Bool
  | some m => m.loyalty_tier = some "gold"
  | none => false

/-- `meta and meta.get("currency")`: the explicit currency when truthy. -/
def metaCurrency : Option PMeta → Option String
  | some m => match m.currency with
      | some c => if c = "" then none else some c
      | none => none
  | none => none

/-- `pricing._get_rate` with no `FX_API_KEY` configured: the cache entry,
else the static demo rate 82.0 (which also warms the cache). -/
def getRate (fxCache : Option ℚ) : ℚ := fxCache.getD 82

/-- `pricing.calculate_price`: returns (final_price, discount_percent,
currency). -/
def calculate_price (fxCache : Option ℚ) (service : String)
    (confidence_pct : ℚ) (meta : Option PMeta) (location : Option String) :
    ℚ × ℚ × String :=
  let base := basePrice service
  let discount : ℚ :=
    if confidence_pct ≥ 90 then 15
    else if confidence_pct ≥ 75 then 10
    else if confidence_pct ≥ 50 then 5
    else 0
  let discount := if metaGold meta then discount + 5 else discount
  let final_usd := round2 (base * (1 - discount / 100))
  let currency : String :=
    match metaCurrency meta with
    | some c => asciiUpper c
    | none =>
      match location with
      | some l => if l ≠ "" ∧ INDIAN_CITIES.contains (asciiLower l) then "INR" else "USD"
      | none => "USD"
  if currency = "INR" then (round2 (final_usd * getRate fxCache), discount, currency)
  else (final_usd, discount, currency)

example :
    calculate_price none "facial" 76 none (some "vijayawada") = (1992.6, 10, "INR") := by
  have h : calculate_price none "facial" 76 none (some "vijayawada") =
      (round2 (round2 (27 * (1 - 10 / 100)) * 82), 10, "INR") := rfl
  rw [h]
  norm_num [round2, rhe, Int.floor_eq_iff]
example : calculate_price none "spa" 95 none none = (42.5, 15, "USD") := by
  have h : calculate_price none "spa" 95 none none =
      (round2 (50 * (1 - 15 / 100)), 15, "USD") := rfl
  rw [h]
  norm_num [round2, rhe, Int.floor_eq_iff]


/-! ### Claim theorems: the parsers and the fuzzy-time scenario -/

/-- C7: the claim says both parsers are total and never raise.  The date parser
is (every `strptime` failure is caught), but `normalize_time` is not: on
`"13pm"` the first regex matches, the meridiem shift produces hour
`13 + 12 = 25`, and `datetime.time(hour=25)` raises an uncaught `ValueError`;
likewise `"9:75pm"` produces minute 75.  This contradicts the function's own
docstring ("Returns None if no sensible time is found"). -/
theorem C7_normalize_time_raises :
    normalize_time "13pm" = .error () ∧ normalize_time "9:75pm" = .error () :=
  ⟨rfl, rfl⟩

/-- C1: evaluation of `extract_booking_state` on the claim's own scenario
`"Book me a salon tomorrow evening"` (reference date 2026-10-12).  The fuzzy
word is detected at confidence 0.7 as claimed, but the committed value is the
zero-padded `"06:00 PM"` (not the claimed `"6:00 PM"` of the spec's mapping
table), and the returned `ambiguities` list is empty — the source never
appends to it — contradicting the claim and the repository's own test
`test_fuzzy_time_detection`, which asserts `"evening" in state["ambiguities"]`. -/
theorem C1_fuzzy_time_divergence :
    (extractRun [] ⟨2026, 10, 12⟩ ["Book me a salon tomorrow evening"]).map
      (fun st => (st.service, st.date, st.time, st.confT, st.ambiguities)) =
    .ok (some "salon", some "2026-10-13", some "06:00 PM", 0.7,
      ([] : List String)) :=
  rfl

/-! ### Helper lemmas for the slot-engine claims -/

theorem catalog_key_ne_empty {service : String} {slots : List String}
    (h : catalog service = some slots) : service ≠ "" := by
  unfold catalog at h
  cases hf : AVAILABLE_SLOTS.find? (fun p => p.1 = service) with
  | none => rw [hf] at h; simp at h
  | some p =>
    have hp := List.find?_some hf
    have hps : p.1 = service := by simpa using hp
    have hmem := List.mem_of_find?_eq_some hf
    subst hps
    fin_cases hmem <;> decide

theorem find_bookings_exact (store : List Booking) (s d t : String)
    (hs : s ≠ "") (hd : d ≠ "") (ht : t ≠ "") :
    find_bookings store (some s) (some d) (some t) =
      store.filter (fun b =>
        decide (b.service = some s) && decide (b.date = some d) &&
          decide (b.time = some t)) := by
  unfold find_bookings
  apply List.filter_congr
  intro b _
  simp [fMatch, hs, hd, ht]

theorem exact_filter_eq_nil (store : List Booking) (s d t : String) :
    store.filter (fun b =>
        decide (b.service = some s) && decide (b.date = some d) &&
          decide (b.time = some t)) = [] ↔
      ∀ b ∈ store, ¬ (b.service = some s ∧ b.date = some d ∧ b.time = some t) := by
  rw [List.filter_eq_nil_iff]
  constructor
  · intro h b hb hc
    have := h b hb
    simp [hc.1, hc.2.1, hc.2.2] at this
  · intro h b hb
    have := h b hb
    simp only [Bool.and_eq_true, decide_eq_true_eq, not_and] at this ⊢
    tauto

theorem check_availability_busy (store : List Booking) (service : String)
    (slots : List String) (d : Option String) (t : String)
    (hcat : catalog service = some slots)
    (hany : slots.contains "Anytime" = false) (ht : t ≠ "") :
    check_availability store service d (some t) =
      (if find_bookings store (some service) d (some t) = [] then (true, slots)
       else (false, slots.filter (fun x => x ≠ t))) := by
  simp only [check_availability, hcat, hany, Bool.false_eq_true, if_false]
  have htr : truthyS (some t) = true := by simp [truthyS, ht]
  rw [htr]
  simp only [Bool.not_true, Bool.false_eq_true, if_false]
  have hfilt : slots.filter (fun x => decide ¬ (some x = some t)) =
      slots.filter (fun x => x ≠ t) :=
    List.filter_congr (fun x _ => by simp)
  by_cases hnil : find_bookings store (some service) d (some t) = []
  · simp [hnil]
  · simp only [ne_eq, hnil, not_false_iff, if_true, if_neg hnil, hfilt]
    simp

/-- C4: the `check_availability` contract.  (1) A service with no configured
catalog yields `(true, ["Anytime"])`; (2) a catalog containing `"Anytime"` is
always available; (3) with no requested time the full catalog is returned as
available; (4) otherwise (for a real date and time) availability holds exactly
when no persisted booking matches `(service, date, time)` exactly, and on a
conflict the alternatives are the catalog entries other than the requested
time, in catalog order. -/
theorem C4_check_availability_contract (store : List Booking) (service : String)
    (date time : Option String) :
    (catalog service = none →
      check_availability store service date time = (true, ["Anytime"])) ∧
    (∀ slots, catalog service = some slots → slots.contains "Anytime" = true →
      check_availability store service date time = (true, slots)) ∧
    (∀ slots, catalog service = some slots → time = none →
      check_availability store service date time = (true, slots)) ∧
    (∀ slots d t, catalog service = some slots → slots.contains "Anytime" = false →
      date = some d → d ≠ "" → time = some t → t ≠ "" →
      ((check_availability store service date time = (true, slots) ↔
          ∀ b ∈ store,
            ¬ (b.service = some service ∧ b.date = some d ∧ b.time = some t)) ∧
        ((∃ b ∈ store, b.service = some service ∧ b.date = some d ∧ b.time = some t) →
          check_availability store service date time =
            (false, slots.filter (fun x => x ≠ t))))) := by
  refine ⟨?_, ?_, ?_, ?_⟩
  · intro h
    simp [check_availability, h]
  · intro slots h hany
    simp only [check_availability, h]
    rw [if_pos hany]
  · intro slots h ht
    subst ht
    by_cases hany : slots.contains "Anytime" = true <;>
      simp [check_availability, h, hany, truthyS]
  · intro slots d t hcat hany hd hdne htime htne
    subst hd htime
    have hs := catalog_key_ne_empty hcat
    have hbusy := check_availability_busy store service slots (some d) t hcat hany htne
    have hfb := find_bookings_exact store service d t hs hdne htne
    have hiff := exact_filter_eq_nil store service d t
    rw [hfb] at hbusy
    constructor
    · rw [hbusy]
      by_cases hnil :
          store.filter (fun b =>
            decide (b.service = some service) && decide (b.date = some d) &&
              decide (b.time = some t)) = []
      · rw [if_pos hnil]
        exact iff_of_true rfl (hiff.mp hnil)
      · rw [if_neg hnil]
        exact iff_of_false (fun hcontr => by simpa using congrArg Prod.fst hcontr)
          (fun hall => hnil (hiff.mpr hall))
    · rintro ⟨b, hb, hmatch⟩
      rw [hbusy, if_neg ?_]
      intro hnil
      exact (hiff.mp hnil) b hb hmatch

theorem C4_witness :
    (check_availability
        [{ id := "b1", service := some "spa", date := some "2099-01-01",
           time := some "9:00 AM", location := none, created_at := "t1" }]
        "spa" (some "2099-01-01") (some "9:00 AM")) =
      (false, ["10:00 AM", "11:00 AM", "4:00 PM"]) ∧
    (check_availability [] "yoga" (some "2099-01-01") (some "9:00 AM")) =
      (true, ["Anytime"]) ∧
    (check_availability [] "hotel" (some "2099-01-01") (some "9:00 AM")).1 = true ∧
    (check_availability [] "spa" (some "2099-01-01") none) =
      (true, ["9:00 AM", "10:00 AM", "11:00 AM", "4:00 PM"]) := by
  have hbusy :=
    (C4_check_availability_contract
      [{ id := "b1", service := some "spa", date := some "2099-01-01",
         time := some "9:00 AM", location := none, created_at := "t1" }]
      "spa" (some "2099-01-01") (some "9:00 AM")).2.2.2
      ["9:00 AM", "10:00 AM", "11:00 AM", "4:00 PM"] "2099-01-01" "9:00 AM"
      (by decide) (by decide) rfl (by decide) rfl (by decide)
  have h1 := hbusy.2 ⟨_, List.mem_singleton.mpr rfl, by decide, by decide, by decide⟩
  have h2 :=
    (C4_check_availability_contract [] "yoga" (some "2099-01-01") (some "9:00 AM")).1
      (by decide)
  have h3 :=
    (C4_check_availability_contract [] "hotel" (some "2099-01-01") (some "9:00 AM")).2.1
      ["Anytime"] (by decide) (by decide)
  have h4 :=
    (C4_check_availability_contract [] "spa" (some "2099-01-01") none).2.2.1
      ["9:00 AM", "10:00 AM", "11:00 AM", "4:00 PM"] (by decide) rfl
  refine ⟨?_, h2, by rw [h3], h4⟩
  rw [h1]
  decide

/-- C5: `book_slot` raises the conflict error exactly when
`check_availability` reports the slot unavailable at call time; on the error
path the store is unchanged, and on success exactly one new record carrying
the given service, date, time and location is appended and returned. -/
theorem C5_book_slot_conflict (store : List Booking)
    (newId createdAt service date time : String) (location : Option String) :
    ((book_slot store newId createdAt service date time location).1 = .error () ↔
      (check_availability store service (some date) (some time)).1 = false) ∧
    ((check_availability store service (some date) (some time)).1 = false →
      (book_slot store newId createdAt service date time location).2 = store) ∧
    (∀ b, (book_slot store newId createdAt service date time location).1 = .ok b →
      (book_slot store newId createdAt service date time location).2 = store ++ [b] ∧
      b.id = newId ∧ b.service = some service ∧ b.date = some date ∧
      b.time = some time ∧ b.location = location) := by
  unfold book_slot add_booking
  by_cases hav : (check_availability store service (some date) (some time)).1 = false
  · rw [if_pos hav]
    refine ⟨iff_of_true rfl hav, fun _ => rfl, ?_⟩
    intro b hb
    exact absurd hb (by simp)
  · rw [if_neg hav]
    refine ⟨iff_of_false (by simp) hav, fun h => absurd h hav, ?_⟩
    intro b hb
    have hb' :
        ({ id := newId, service := some service, date := some date,
           time := some time, location := location, created_at := createdAt } : Booking) = b := by
      simpa using hb
    subst hb'
    exact ⟨rfl, rfl, rfl, rfl, rfl, rfl⟩

theorem C5_witness :
    (book_slot [] "bkg1" "ts1" "spa" "2099-01-01" "9:00 AM" (some "delhi")).2 =
      [{ id := "bkg1", service := some "spa", date := some "2099-01-01",
         time := some "9:00 AM", location := some "delhi", created_at := "ts1" }] ∧
    (book_slot
        [{ id := "bkg1", service := some "spa", date := some "2099-01-01",
           time := some "9:00 AM", location := some "delhi", created_at := "ts1" }]
        "bkg2" "ts2" "spa" "2099-01-01" "9:00 AM" none).1 = .error () ∧
    (book_slot
        [{ id := "bkg1", service := some "spa", date := some "2099-01-01",
           time := some "9:00 AM", location := some "delhi", created_at := "ts1" }]
        "bkg2" "ts2" "spa" "2099-01-01" "9:00 AM" none).2 =
      [{ id := "bkg1", service := some "spa", date := some "2099-01-01",
         time := some "9:00 AM", location := some "delhi", created_at := "ts1" }] := by
  have h1 :=
    ((C5_book_slot_conflict [] "bkg1" "ts1" "spa" "2099-01-01" "9:00 AM"
      (some "delhi")).2.2 _ rfl).1
  have h2 :=
    (C5_book_slot_conflict
      [{ id := "bkg1", service := some "spa", date := some "2099-01-01",
         time := some "9:00 AM", location := some "delhi", created_at := "ts1" }]
      "bkg2" "ts2" "spa" "2099-01-01" "9:00 AM" none).1.mpr (by decide)
  have h3 :=
    (C5_book_slot_conflict
      [{ id := "bkg1", service := some "spa", date := some "2099-01-01",
         time := some "9:00 AM", location := some "delhi", created_at := "ts1" }]
      "bkg2" "ts2" "spa" "2099-01-01" "9:00 AM" none).2.1 (by decide)
  exact ⟨by rw [h1]; rfl, h2, h3⟩

/-- C6 counterexample: for `"hotel"` (an `"Anytime"` catalog) the claim fails:
the slot is reported free, booking succeeds, and an immediate re-check still
reports the slot available — not unavailable as the claim requires for every
service. -/
theorem C6_counterexample :
    (check_availability [] "hotel" (some "2099-01-01") (some "9:00 AM")).1 = true ∧
    (book_slot [] "b1" "t1" "hotel" "2099-01-01" "9:00 AM" none).1 =
      .ok { id := "b1", service := some "hotel", date := some "2099-01-01",
            time := some "9:00 AM", location := none, created_at := "t1" } ∧
    (check_availability (book_slot [] "b1" "t1" "hotel" "2099-01-01" "9:00 AM" none).2
        "hotel" (some "2099-01-01") (some "9:00 AM")).1 = true :=
  ⟨rfl, rfl, rfl⟩

/-- C6 (amended): the availability round-trip holds for every service with a
configured catalog not containing `"Anytime"` and a non-empty requested time:
booking a free slot makes an immediate re-check report unavailable, and
cancelling the returned booking's id makes a subsequent re-check report
available again. -/
theorem C6_round_trip (store : List Booking) (service : String)
    (slots : List String) (d t bid ts : String) (loc : Option String)
    (hcat : catalog service = some slots) (hany : slots.contains "Anytime" = false)
    (ht : t ≠ "")
    (hfree : (check_availability store service (some d) (some t)).1 = true) :
    ∃ b store1,
      book_slot store bid ts service d t loc = (.ok b, store1) ∧
      (check_availability store1 service (some d) (some t)).1 = false ∧
      (cancel_booking b.id store1).1 = true ∧
      (check_availability (cancel_booking b.id store1).2 service (some d) (some t)).1 =
        true := by
  have hs := catalog_key_ne_empty hcat
  have hbusy := check_availability_busy store service slots (some d) t hcat hany ht
  have hnil : find_bookings store (some service) (some d) (some t) = [] := by
    by_contra hne
    rw [hbusy, if_neg hne] at hfree
    simp at hfree
  have hav : ¬ (check_availability store service (some d) (some t)).1 = false := by
    rw [hfree]; simp
  set b : Booking :=
    { id := bid, service := some service, date := some d, time := some t,
      location := loc, created_at := ts } with hb
  have hmatches : (fun x : Booking => fMatch (some service) x.service &&
      fMatch (some d) x.date && fMatch (some t) x.time) b = true := by
    simp [hb, fMatch, hs, ht]
  refine ⟨b, store ++ [b], ?_, ?_, ?_, ?_⟩
  · unfold book_slot add_booking
    rw [if_neg hav]
  · rw [check_availability_busy (store ++ [b]) service slots (some d) t hcat hany ht]
    have hne : find_bookings (store ++ [b]) (some service) (some d) (some t) ≠ [] := by
      unfold find_bookings
      rw [List.filter_append]
      simp [hmatches]
    rw [if_neg hne]
  · unfold cancel_booking remove_booking
    simp only [List.filter_append]
    have : ([b].filter (fun x => x.id ≠ bid)) = [] := by simp [hb]
    rw [this]
    simp only [List.append_nil]
    have hle := List.length_filter_le (fun x : Booking => x.id ≠ bid) store
    simp only [List.length_append, List.length_cons, List.length_nil,
      decide_eq_true_eq]
    omega
  · unfold cancel_booking remove_booking
    simp only
    rw [check_availability_busy _ service slots (some d) t hcat hany ht]
    have hsubnil :
        find_bookings ((store ++ [b]).filter (fun x => x.id ≠ bid)) (some service)
          (some d) (some t) = [] := by
      unfold find_bookings at hnil ⊢
      rw [List.filter_eq_nil_iff] at hnil ⊢
      intro x hx
      rw [List.mem_filter] at hx
      rcases List.mem_append.mp hx.1 with hxs | hxb
      · exact hnil x hxs
      · exfalso
        have : x = b := by simpa using hxb
        subst this
        simp [hb] at hx
    rw [if_pos hsubnil]

theorem C6_witness :
    ∃ b store1,
      book_slot [] "w1" "ts" "spa" "2099-01-01" "9:00 AM" none = (.ok b, store1) ∧
      (check_availability store1 "spa" (some "2099-01-01") (some "9:00 AM")).1 = false ∧
      (cancel_booking b.id store1).1 = true ∧
      (check_availability (cancel_booking b.id store1).2 "spa" (some "2099-01-01")
          (some "9:00 AM")).1 = true :=
  C6_round_trip [] "spa" ["9:00 AM", "10:00 AM", "11:00 AM", "4:00 PM"]
    "2099-01-01" "9:00 AM" "w1" "ts" none rfl (by decide) (by decide) rfl

/-- C10: for every service with no catalog entry, or whose catalog contains
`"Anytime"` (e.g. `"hotel"`), `check_availability` reports available
regardless of the stored bookings; `book_slot` therefore never raises for such
a service, booking twice with identical arguments appends two records for the
same slot (distinct whenever their generated ids differ), and the round-trip
property fails: the slot is still reported available afterwards. -/
theorem C10_unconstrained_services (store : List Booking)
    (service d t id1 ts1 id2 ts2 : String) (loc1 loc2 : Option String)
    (h : catalog service = none ∨
      ∃ slots, catalog service = some slots ∧ slots.contains "Anytime" = true) :
    (∀ (st : List Booking) (dd tt : Option String),
      (check_availability st service dd tt).1 = true) ∧
    ∃ b1 b2,
      book_slot store id1 ts1 service d t loc1 = (.ok b1, store ++ [b1]) ∧
      book_slot (store ++ [b1]) id2 ts2 service d t loc2 =
        (.ok b2, store ++ [b1, b2]) ∧
      b1.service = some service ∧ b1.date = some d ∧ b1.time = some t ∧
      b2.service = some service ∧ b2.date = some d ∧ b2.time = some t ∧
      (id1 ≠ id2 → b1 ≠ b2) ∧
      (check_availability (store ++ [b1, b2]) service (some d) (some t)).1 = true := by
  have hav : ∀ (st : List Booking) (dd tt : Option String),
      (check_availability st service dd tt).1 = true := by
    intro st dd tt
    rcases h with hnone | ⟨slots, hcat, hany⟩
    · simp [check_availability, hnone]
    · simp only [check_availability, hcat]
      rw [if_pos hany]
  refine ⟨hav, ?_⟩
  have hne1 : ¬ (check_availability store service (some d) (some t)).1 = false := by
    rw [hav]; simp
  set b1 : Booking :=
    { id := id1, service := some service, date := some d, time := some t,
      location := loc1, created_at := ts1 } with hb1
  have hne2 :
      ¬ (check_availability (store ++ [b1]) service (some d) (some t)).1 = false := by
    rw [hav]; simp
  set b2 : Booking :=
    { id := id2, service := some service, date := some d, time := some t,
      location := loc2, created_at := ts2 } with hb2
  refine ⟨b1, b2, ?_, ?_, rfl, rfl, rfl, rfl, rfl, rfl, ?_, hav _ _ _⟩
  · unfold book_slot add_booking
    rw [if_neg hne1]
  · unfold book_slot add_booking
    rw [if_neg hne2]
    simp [List.append_assoc]
  · intro hids heq
    exact hids (by rw [hb1, hb2] at heq; exact congrArg Booking.id heq)

theorem C10_witness :
    (check_availability [] "hotel" (some "2099-01-01") (some "9:00 AM")).1 = true ∧
    ∃ b1 b2,
      book_slot [] "h1" "t1" "hotel" "2099-01-01" "9:00 AM" none = (.ok b1, [b1]) ∧
      book_slot [b1] "h2" "t2" "hotel" "2099-01-01" "9:00 AM" none =
        (.ok b2, [b1, b2]) ∧
      b1 ≠ b2 ∧
      (check_availability [b1, b2] "hotel" (some "2099-01-01") (some "9:00 AM")).1 =
        true := by
  have h :=
    C10_unconstrained_services [] "hotel" "2099-01-01" "9:00 AM" "h1" "t1" "h2" "t2"
      none none (Or.inr ⟨["Anytime"], rfl, by decide⟩)
  obtain ⟨hall, b1, b2, hbk1, hbk2, _, _, _, _, _, _, hdist, hre⟩ := h
  exact ⟨hall [] (some "2099-01-01") (some "9:00 AM"), b1, b2, hbk1, hbk2,
    hdist (by decide), hre⟩

/-- The discount exactly as the claim words it: tier from the confidence,
plus five additional points for gold loyalty. -/
def specDiscount (conf : ℚ) (meta : Option PMeta) : ℚ :=
  (if conf ≥ 90 then 15 else if conf ≥ 75 then 10 else if conf ≥ 50 then 5 else 0) +
  (if metaGold meta then 5 else 0)

theorem calculate_price_eq (fxCache : Option ℚ) (service : String) (conf : ℚ)
    (meta : Option PMeta) (location : Option String) :
    calculate_price fxCache service conf meta location =
      (let disc := specDiscount conf meta
       let cur : String :=
         match metaCurrency meta with
         | some c => asciiUpper c
         | none =>
           match location with
           | some l =>
               if l ≠ "" ∧ INDIAN_CITIES.contains (asciiLower l) then "INR" else "USD"
           | none => "USD"
       let fu := round2 (basePrice service * (1 - disc / 100))
       (if cur = "INR" then round2 (fu * getRate fxCache) else fu, disc, cur)) := by
  unfold calculate_price specDiscount
  by_cases hg : metaGold meta = true <;> simp [hg] <;> split <;> rfl

/-- C9 (amended): pricing is deterministic and tiered.  The discount is 15
for confidence ≥ 90, 10 for ≥ 75, 5 for ≥ 50, else 0, plus 5 for gold
loyalty; the currency is the upper-cased `meta.currency` when one is
explicitly given (the amendment: the source normalises the explicit code to
upper case), else INR for a known Indian city, else USD; the INR amount is the
cached exchange rate applied to the discounted, 2-decimal-rounded USD amount,
rounded again to 2 decimals. -/
theorem C9_pricing (fxCache : Option ℚ) (service : String) (conf : ℚ)
    (meta : Option PMeta) (location : Option String) :
    (calculate_price fxCache service conf meta location).2.1 =
      specDiscount conf meta ∧
    (∀ c, metaCurrency meta = some c →
      (calculate_price fxCache service conf meta location).2.2 = asciiUpper c) ∧
    (metaCurrency meta = none → ∀ l, location = some l → l ≠ "" →
      INDIAN_CITIES.contains (asciiLower l) = true →
      (calculate_price fxCache service conf meta location).2.2 = "INR") ∧
    (metaCurrency meta = none →
      (location = none ∨ ∃ l, location = some l ∧
        (l = "" ∨ INDIAN_CITIES.contains (asciiLower l) = false)) →
      (calculate_price fxCache service conf meta location).2.2 = "USD") ∧
    ((calculate_price fxCache service conf meta location).2.2 = "INR" →
      (calculate_price fxCache service conf meta location).1 =
        round2 (round2 (basePrice service * (1 - specDiscount conf meta / 100)) *
          getRate fxCache)) ∧
    ((calculate_price fxCache service conf meta location).2.2 ≠ "INR" →
      (calculate_price fxCache service conf meta location).1 =
        round2 (basePrice service * (1 - specDiscount conf meta / 100))) := by
  rw [calculate_price_eq]
  refine ⟨by split <;> rfl, ?_, ?_, ?_, ?_, ?_⟩
  · intro c hc
    simp only [hc]
  · intro hc l hl hlne hind
    simp only [hc, hl]
    simp [hlne, List.mem_of_elem_eq_true hind]
  · intro hc hloc
    simp only [hc]
    rcases hloc with hnone | ⟨l, hl, hcase⟩
    · simp [hnone]
    · simp only [hl]
      rcases hcase with hle | hnotin
      · simp [hle]
      · have hnm : asciiLower l ∉ INDIAN_CITIES := by simpa using hnotin
        simp [hnm]
  · intro hinr
    simp only at hinr ⊢
    rw [if_pos hinr]
  · intro hninr
    simp only at hninr ⊢
    rw [if_neg hninr]

/-- C9 counterexample: with the explicit lower-case currency `"inr"` the
returned currency is `"INR"`, not the given `meta.currency` string — the
claim's "the currency is meta.currency" fails without the upper-casing
amendment. -/
theorem C9_counterexample :
    (calculate_price none "spa" 0
        (some { loyalty_tier := none, currency := some "inr" }) none).2.2 = "INR" ∧
    ("INR" : String) ≠ "inr" :=
  ⟨rfl, by decide⟩

/-- C9 witness: the claim's own scenario, derived from `C9_pricing`:
`calculate_price("facial", 76.0, None, location="vijayawada")` gives currency
INR, discount 10, and amount `round(27 × 0.90 × 82.0, 2) = 1992.6`. -/
theorem C9_witness :
    (calculate_price none "facial" 76 none (some "vijayawada")).2.2 = "INR" ∧
    (calculate_price none "facial" 76 none (some "vijayawada")).2.1 = 10 ∧
    (calculate_price none "facial" 76 none (some "vijayawada")).1 = 1992.6 := by
  have h := C9_pricing none "facial" 76 none (some "vijayawada")
  have hcur := h.2.2.1 rfl "vijayawada" rfl (by decide) (by decide)
  have hdisc : specDiscount 76 none = 10 := by
    unfold specDiscount metaGold
    norm_num
  refine ⟨hcur, ?_, ?_⟩
  · rw [h.1, hdisc]
  · rw [h.2.2.2.2.1 hcur, hdisc]
    have hbase : basePrice "facial" = 27 := rfl
    have hrate : getRate none = 82 := rfl
    rw [hbase, hrate]
    norm_num [round2, rhe, Int.floor_eq_iff]

lemma score_eq_round2_spec (st : EState) :
    (compute_explainability_score st).score = round2 (specExplainabilityScore st) := by
  unfold compute_explainability_score specExplainabilityScore
  norm_num [mul_comm]

/-- C8 (amended): the returned explainability score equals the claim's
formula `clamp(avgConf × (1 − ambiguityPenalty − missingPenalty)) × 100`
rounded to 2 decimal places (Python's `round`, i.e. round-half-to-even) — the
rounding step is the amendment. -/
theorem C8_score_rounding (st : EState) :
    (compute_explainability_score st).score = round2 (specExplainabilityScore st) :=
  score_eq_round2_spec st

def c8CounterState : EState :=
  { confidences := [0.95, 0.7, 0.9, 0], service := some "spa",
    date := some "2099-01-01", time := some "9:00 AM", location := some "delhi",
    ambiguities := ["evening"] }

lemma c8_spec_value : specExplainabilityScore c8CounterState = 54.1875 := by
  have hfl : (((slotFields c8CounterState).filter (fun v => ¬ truthyS v)).length : ℚ) = 0 := rfl
  have hal : (c8CounterState.ambiguities.length : ℚ) = 1 := rfl
  have hcl : (c8CounterState.confidences.length : ℚ) = 4 := rfl
  have hcs : c8CounterState.confidences.sum = 51 / 20 := by
    show ((0.95 : ℚ) :: [0.7, 0.9, 0]).sum = 51 / 20
    norm_num [List.sum_cons, List.sum_nil]
  have hne : ¬ (c8CounterState.confidences = []) := by
    show ¬ (((0.95 : ℚ) :: [0.7, 0.9, 0]) = [])
    simp
  unfold specExplainabilityScore
  rw [if_neg hne, hfl, hal, hcl, hcs]
  norm_num [min_def, max_def]

/-- C8 counterexample: a state with confidences `[0.95, 0.7, 0.9, 0]`, one
ambiguity and no missing fields.  The claimed formula gives 54.1875 but the
function returns 54.19: the returned score is not equal to the un-rounded
formula. -/
theorem C8_counterexample :
    (compute_explainability_score c8CounterState).score = 54.19 ∧
    specExplainabilityScore c8CounterState = 54.1875 ∧
    (compute_explainability_score c8CounterState).score ≠
      specExplainabilityScore c8CounterState := by
  have h1 : (compute_explainability_score c8CounterState).score = 54.19 := by
    rw [score_eq_round2_spec, c8_spec_value]
    norm_num [round2, rhe, Int.floor_eq_iff]
  refine ⟨h1, c8_spec_value, ?_⟩
  rw [h1, c8_spec_value]
  norm_num

/-! ### Monotone accumulation of `extract_booking_state` (claim C2) -/

/-- Field preservation between two extraction states: a truthy field keeps its
value (and its confidence), except the sanctioned one-time refinement of the
generic service `"appointment"` into `"facial"`/`"dental"` (confidence 0.9). -/
def FieldKeep (st st' : BState) : Prop :=
  (truthyS st.date = true → st'.date = st.date ∧ st'.confD = st.confD) ∧
  (truthyS st.time = true → st'.time = st.time ∧ st'.confT = st.confT) ∧
  (truthyS st.location = true → st'.location = st.location ∧ st'.confL = st.confL) ∧
  (truthyS st.service = true →
    (st'.service = st.service ∧ st'.confS = st.confS) ∨
    (st.service = some "appointment" ∧
      (st'.service = some "facial" ∨ st'.service = some "dental") ∧
      st'.confS = 0.9))

lemma fieldKeep_refl (st : BState) : FieldKeep st st :=
  ⟨fun _ => ⟨rfl, rfl⟩, fun _ => ⟨rfl, rfl⟩, fun _ => ⟨rfl, rfl⟩,
   fun _ => Or.inl ⟨rfl, rfl⟩⟩

lemma fieldKeep_trans {a b c : BState} (h1 : FieldKeep a b) (h2 : FieldKeep b c) :
    FieldKeep a c := by
  obtain ⟨d1, t1, l1, s1⟩ := h1
  obtain ⟨d2, t2, l2, s2⟩ := h2
  refine ⟨?_, ?_, ?_, ?_⟩
  · intro h
    obtain ⟨hv, hc⟩ := d1 h
    have hb : truthyS b.date = true := by rw [hv]; exact h
    obtain ⟨hv2, hc2⟩ := d2 hb
    exact ⟨hv2.trans hv, hc2.trans hc⟩
  · intro h
    obtain ⟨hv, hc⟩ := t1 h
    have hb : truthyS b.time = true := by rw [hv]; exact h
    obtain ⟨hv2, hc2⟩ := t2 hb
    exact ⟨hv2.trans hv, hc2.trans hc⟩
  · intro h
    obtain ⟨hv, hc⟩ := l1 h
    have hb : truthyS b.location = true := by rw [hv]; exact h
    obtain ⟨hv2, hc2⟩ := l2 hb
    exact ⟨hv2.trans hv, hc2.trans hc⟩
  · intro h
    rcases s1 h with ⟨hv, hc⟩ | ⟨happ, hfd, hc⟩
    · have hb : truthyS b.service = true := by rw [hv]; exact h
      rcases s2 hb with ⟨hv2, hc2⟩ | ⟨happ2, hfd2, hc2⟩
      · exact Or.inl ⟨hv2.trans hv, hc2.trans hc⟩
      · exact Or.inr ⟨hv ▸ happ2, hfd2, hc2⟩
    · have hb : truthyS b.service = true := by
        rcases hfd with hf | hd
        · rw [hf]; decide
        · rw [hd]; decide
      rcases s2 hb with ⟨hv2, hc2⟩ | ⟨happ2, hfd2, hc2⟩
      · refine Or.inr ⟨happ, ?_, hc2.trans hc⟩
        rcases hfd with hf | hd
        · exact Or.inl (hv2.trans hf)
        · exact Or.inr (hv2.trans hd)
      · exfalso
        rcases hfd with hf | hd
        · rw [hf] at happ2; simp at happ2
        · rw [hd] at happ2; simp at happ2

lemma fieldKeep_stepLocPattern (st : BState) (text : List Char) :
    FieldKeep st (stepLocPattern st text) := by
  unfold stepLocPattern
  dsimp only
  split
  · exact fieldKeep_refl st
  · split
    · split
      · next h =>
        exact ⟨fun _ => ⟨rfl, rfl⟩, fun _ => ⟨rfl, rfl⟩, fun ht => absurd ht h,
          fun _ => Or.inl ⟨rfl, rfl⟩⟩
      · exact fieldKeep_refl st
    · exact ⟨fun _ => ⟨rfl, rfl⟩, fun _ => ⟨rfl, rfl⟩, fun _ => ⟨rfl, rfl⟩,
        fun _ => Or.inl ⟨rfl, rfl⟩⟩

lemma fieldKeep_stepDeleg (st : BState) (text : List Char) :
    FieldKeep st (stepDeleg st text) := by
  unfold stepDeleg
  split
  · exact ⟨fun _ => ⟨rfl, rfl⟩, fun _ => ⟨rfl, rfl⟩, fun _ => ⟨rfl, rfl⟩,
      fun _ => Or.inl ⟨rfl, rfl⟩⟩
  · exact fieldKeep_refl st

lemma fieldKeep_stepIntent (st : BState) (text : List Char) :
    FieldKeep st (stepIntent st text) := by
  unfold stepIntent
  split
  · exact ⟨fun _ => ⟨rfl, rfl⟩, fun _ => ⟨rfl, rfl⟩, fun _ => ⟨rfl, rfl⟩,
      fun _ => Or.inl ⟨rfl, rfl⟩⟩
  · split
    · exact ⟨fun _ => ⟨rfl, rfl⟩, fun _ => ⟨rfl, rfl⟩, fun _ => ⟨rfl, rfl⟩,
        fun _ => Or.inl ⟨rfl, rfl⟩⟩
    · exact fieldKeep_refl st

lemma fieldKeep_stepService (st : BState) (text : List Char) :
    FieldKeep st (stepService st text) := by
  unfold stepService
  generalize SERVICES = l
  induction l generalizing st with
  | nil => exact fieldKeep_refl st
  | cons svc rest ih =>
    refine fieldKeep_trans ?_ (ih _)
    simp only [List.foldl_cons]
    split
    · next h =>
      exact ⟨fun _ => ⟨rfl, rfl⟩, fun _ => ⟨rfl, rfl⟩, fun _ => ⟨rfl, rfl⟩,
        fun ht => absurd ht h.2⟩
    · exact fieldKeep_refl st

lemma fieldKeep_stepRefine (st : BState) (text : List Char) :
    FieldKeep st (stepRefine st text) := by
  unfold stepRefine
  split
  · next happ =>
    split
    · exact ⟨fun _ => ⟨rfl, rfl⟩, fun _ => ⟨rfl, rfl⟩, fun _ => ⟨rfl, rfl⟩,
        fun _ => Or.inr ⟨happ, Or.inl rfl, rfl⟩⟩
    · split
      · exact ⟨fun _ => ⟨rfl, rfl⟩, fun _ => ⟨rfl, rfl⟩, fun _ => ⟨rfl, rfl⟩,
          fun _ => Or.inr ⟨happ, Or.inr rfl, rfl⟩⟩
      · exact fieldKeep_refl st
  · exact fieldKeep_refl st

lemma fieldKeep_stepDate (today : PyDate) (st : BState) (text : String) :
    FieldKeep st (stepDate today st text) := by
  unfold stepDate
  split
  · next h =>
    split
    · exact ⟨fun ht => absurd ht h, fun _ => ⟨rfl, rfl⟩, fun _ => ⟨rfl, rfl⟩,
        fun _ => Or.inl ⟨rfl, rfl⟩⟩
    · exact fieldKeep_refl st
  · exact fieldKeep_refl st

lemma fieldKeep_stepTime {st st' : BState} {text : String}
    (h : stepTime st text = .ok st') : FieldKeep st st' := by
  unfold stepTime at h
  by_cases htr : truthyS st.time = true
  · rw [if_neg (by simpa using htr)] at h
    cases h
    exact fieldKeep_refl st
  · rw [if_pos (by simpa using htr)] at h
    cases hnt : normalize_time text with
    | error e => rw [hnt] at h; cases h
    | ok r =>
      rw [hnt] at h
      cases r with
      | some tv =>
        cases h
        exact ⟨fun _ => ⟨rfl, rfl⟩, fun ht => absurd ht htr, fun _ => ⟨rfl, rfl⟩,
          fun _ => Or.inl ⟨rfl, rfl⟩⟩
      | none =>
        cases hfind : FUZZY_MAP.find? (fun p => hasTok (asciiLower text).toList p.1.toList) with
        | none =>
          rw [hfind] at h
          cases h
          exact fieldKeep_refl st
        | some p =>
          rw [hfind] at h
          cases h
          exact ⟨fun _ => ⟨rfl, rfl⟩, fun ht => absurd ht htr, fun _ => ⟨rfl, rfl⟩,
            fun _ => Or.inl ⟨rfl, rfl⟩⟩

lemma fieldKeep_stepCity (st : BState) (text : List Char) :
    FieldKeep st (stepCity st text) := by
  unfold stepCity
  generalize CITIES = l
  induction l generalizing st with
  | nil => exact fieldKeep_refl st
  | cons city rest ih =>
    refine fieldKeep_trans ?_ (ih _)
    simp only [List.foldl_cons]
    split
    · next h =>
      exact ⟨fun _ => ⟨rfl, rfl⟩, fun _ => ⟨rfl, rfl⟩, fun ht => absurd ht h.2,
        fun _ => Or.inl ⟨rfl, rfl⟩⟩
    · exact fieldKeep_refl st

lemma fieldKeep_stepTurn {today : PyDate} {st st' : BState} {msg : String}
    (h : stepTurn today st msg = .ok st') : FieldKeep st st' := by
  unfold stepTurn at h
  dsimp only at h
  cases hst : stepTime (stepDate today
      (stepRefine (stepService (stepIntent (stepDeleg
        (stepLocPattern st (asciiLower msg).toList) (asciiLower msg).toList)
        (asciiLower msg).toList) (asciiLower msg).toList) (asciiLower msg).toList)
      (asciiLower msg)) (asciiLower msg) with
  | error e => rw [hst] at h; cases h
  | ok st7 =>
    rw [hst] at h
    cases h
    exact
      fieldKeep_trans (fieldKeep_stepLocPattern st (asciiLower msg).toList)
        (fieldKeep_trans (fieldKeep_stepDeleg _ (asciiLower msg).toList)
          (fieldKeep_trans (fieldKeep_stepIntent _ (asciiLower msg).toList)
            (fieldKeep_trans (fieldKeep_stepService _ (asciiLower msg).toList)
              (fieldKeep_trans (fieldKeep_stepRefine _ (asciiLower msg).toList)
                (fieldKeep_trans (fieldKeep_stepDate today _ (asciiLower msg))
                  (fieldKeep_trans (fieldKeep_stepTime hst)
                    (fieldKeep_stepCity st7 (asciiLower msg).toList)))))))

lemma fieldKeep_processTurns {today : PyDate} {st st' : BState} {msgs : List String}
    (h : processTurns today st msgs = .ok st') : FieldKeep st st' := by
  induction msgs generalizing st with
  | nil =>
    unfold processTurns at h
    cases h
    exact fieldKeep_refl _
  | cons m rest ih =>
    unfold processTurns at h
    cases hst : stepTurn today st m with
    | error e => rw [hst] at h; cases h
    | ok st1 =>
      rw [hst] at h
      exact fieldKeep_trans (fieldKeep_stepTurn hst) (ih h)

lemma processTurns_append (today : PyDate) (st : BState) (l1 l2 : List String) :
    processTurns today st (l1 ++ l2) =
      Except.bind (processTurns today st l1)
        (fun st1 => processTurns today st1 l2) := by
  induction l1 generalizing st with
  | nil => rfl
  | cons m rest ih =>
    simp only [List.cons_append, processTurns]
    cases stepTurn today st m with
    | error e => rfl
    | ok st1 => exact ih st1

lemma fieldKeep_ppService (st : BState) : FieldKeep st (ppService st) := by
  unfold ppService
  split
  · next h =>
    exact ⟨fun _ => ⟨rfl, rfl⟩, fun _ => ⟨rfl, rfl⟩, fun _ => ⟨rfl, rfl⟩,
      fun ht => absurd ht h⟩
  · exact fieldKeep_refl st

lemma fieldKeep_ppDate (today : PyDate) (st : BState) :
    FieldKeep st (ppDate today st) := by
  unfold ppDate
  split
  · next h =>
    exact ⟨fun ht => absurd ht h, fun _ => ⟨rfl, rfl⟩, fun _ => ⟨rfl, rfl⟩,
      fun _ => Or.inl ⟨rfl, rfl⟩⟩
  · exact fieldKeep_refl st

lemma fieldKeep_ppTime
    (fna : String → String → Except Unit (Option (String × List String)))
    (st : BState) : FieldKeep st (ppTime fna st) := by
  unfold ppTime
  split
  · next h =>
    split
    · split <;>
        exact ⟨fun _ => ⟨rfl, rfl⟩, fun ht => absurd ht h, fun _ => ⟨rfl, rfl⟩,
          fun _ => Or.inl ⟨rfl, rfl⟩⟩
    · exact ⟨fun _ => ⟨rfl, rfl⟩, fun ht => absurd ht h, fun _ => ⟨rfl, rfl⟩,
        fun _ => Or.inl ⟨rfl, rfl⟩⟩
  · exact fieldKeep_refl st

lemma fieldKeep_ppLoc (st : BState) : FieldKeep st (ppLoc st) := by
  unfold ppLoc
  split
  · next h =>
    split <;>
      exact ⟨fun _ => ⟨rfl, rfl⟩, fun _ => ⟨rfl, rfl⟩, fun ht => absurd ht h,
        fun _ => Or.inl ⟨rfl, rfl⟩⟩
  · exact fieldKeep_refl st

lemma fieldKeep_postPass
    (fna : String → String → Except Unit (Option (String × List String)))
    (today : PyDate) (st : BState) : FieldKeep st (postPass fna today st) := by
  unfold postPass
  split
  · exact fieldKeep_trans (fieldKeep_ppService st)
      (fieldKeep_trans (fieldKeep_ppDate today _)
        (fieldKeep_trans (fieldKeep_ppTime fna _) (fieldKeep_ppLoc _)))
  · exact fieldKeep_refl st

/-- C2: monotone accumulation.  If processing a prefix of the conversation
yields a state whose date, time, location or service field is set (truthy),
then the state extracted from the full conversation — post-pass delegation
defaults included — carries the same value and confidence; the one exception
is the service refinement, where a generic `"appointment"` may become
`"facial"` or `"dental"` at confidence 0.9. -/
theorem C2_monotone_accumulation
    (fna : String → String → Except Unit (Option (String × List String)))
    (today : PyDate) (msgs1 msgs2 : List String) (st1 stF : BState)
    (h1 : processTurns today initState msgs1 = .ok st1)
    (hF : extract_booking_state fna today (msgs1 ++ msgs2) = .ok stF) :
    (truthyS st1.date = true → stF.date = st1.date ∧ stF.confD = st1.confD) ∧
    (truthyS st1.time = true → stF.time = st1.time ∧ stF.confT = st1.confT) ∧
    (truthyS st1.location = true →
      stF.location = st1.location ∧ stF.confL = st1.confL) ∧
    (truthyS st1.service = true →
      (stF.service = st1.service ∧ stF.confS = st1.confS) ∨
      (st1.service = some "appointment" ∧
        (stF.service = some "facial" ∨ stF.service = some "dental") ∧
        stF.confS = 0.9)) := by
  unfold extract_booking_state at hF
  rw [processTurns_append today initState msgs1 msgs2, h1] at hF
  simp only [Except.bind] at hF
  cases hM : processTurns today st1 msgs2 with
  | error e =>
    rw [hM] at hF
    exact absurd hF (by simp [Except.bind])
  | ok stM =>
    rw [hM] at hF
    have hpp : stF = postPass fna today stM := by
      simpa [Except.bind] using hF.symm
    subst hpp
    exact fieldKeep_trans (fieldKeep_processTurns hM)
      (fieldKeep_postPass fna today stM)

theorem C2_witness :
    ∃ st1 stF,
      processTurns ⟨2026, 10, 12⟩ initState
        ["I want a spa at 9am in delhi tomorrow"] = .ok st1 ∧
      extract_booking_state (fnaOf []) ⟨2026, 10, 12⟩
        (["I want a spa at 9am in delhi tomorrow"] ++
          ["make that a salon at 10:30 in mumbai on 23/4/2099"]) = .ok stF ∧
      truthyS st1.service = true ∧ truthyS st1.date = true ∧
      truthyS st1.time = true ∧ truthyS st1.location = true ∧
      stF.service = st1.service ∧ stF.date = st1.date ∧
      stF.time = st1.time ∧ stF.location = st1.location := by
  refine ⟨_, _, rfl, rfl, by decide, by decide, by decide, by decide,
    ?_, ?_, ?_, ?_⟩
  · exact (((C2_monotone_accumulation (fnaOf []) ⟨2026, 10, 12⟩
      ["I want a spa at 9am in delhi tomorrow"]
      ["make that a salon at 10:30 in mumbai on 23/4/2099"] _ _ rfl rfl).2.2.2
      (by decide)).resolve_right (fun hr => absurd hr.1 (by decide))).1
  · exact ((C2_monotone_accumulation (fnaOf []) ⟨2026, 10, 12⟩
      ["I want a spa at 9am in delhi tomorrow"]
      ["make that a salon at 10:30 in mumbai on 23/4/2099"] _ _ rfl rfl).1
      (by decide)).1
  · exact ((C2_monotone_accumulation (fnaOf []) ⟨2026, 10, 12⟩
      ["I want a spa at 9am in delhi tomorrow"]
      ["make that a salon at 10:30 in mumbai on 23/4/2099"] _ _ rfl rfl).2.1
      (by decide)).1
  · exact ((C2_monotone_accumulation (fnaOf []) ⟨2026, 10, 12⟩
      ["I want a spa at 9am in delhi tomorrow"]
      ["make that a salon at 10:30 in mumbai on 23/4/2099"] _ _ rfl rfl).2.2.1
      (by decide)).1

/-! ### Characterisation of the delegation post-pass (claim C3) -/

/-- The service name the delegation time-default queries the availability
engine with: the user's service if set, else the service default. -/
def resolvedService (st : BState) : String :=
  if truthyS st.service then st.service.getD "" else "facial"

/-- The date the delegation time-default queries the availability engine
with: the user's date if set, else the reference date. -/
def resolvedDate (today : PyDate) (st : BState) : String :=
  if truthyS st.date then st.date.getD "" else isoformat today

lemma ppService_keep (st : BState) :
    (ppService st).date = st.date ∧ (ppService st).time = st.time ∧
    (ppService st).location = st.location ∧
    (ppService st).explicitLoc = st.explicitLoc ∧
    (ppService st).confD = st.confD ∧ (ppService st).confT = st.confT ∧
    (ppService st).confL = st.confL ∧
    (ppService st).location_auto_selected = st.location_auto_selected := by
  unfold ppService
  split <;> exact ⟨rfl, rfl, rfl, rfl, rfl, rfl, rfl, rfl⟩

lemma ppService_char (st : BState) :
    (¬ truthyS st.service = true →
      (ppService st).service = some "facial" ∧ (ppService st).confS = 0.6 ∧
      (ppService st).service_auto_selected = true) ∧
    (truthyS st.service = true → ppService st = st) := by
  unfold ppService
  by_cases h : truthyS st.service = true
  · rw [if_neg (by simpa using h)]
    exact ⟨fun hc => absurd h hc, fun _ => rfl⟩
  · rw [if_pos (by simpa using h)]
    exact ⟨fun _ => ⟨rfl, rfl, rfl⟩, fun hc => absurd hc h⟩

lemma ppDate_keep (today : PyDate) (st : BState) :
    (ppDate today st).service = st.service ∧ (ppDate today st).time = st.time ∧
    (ppDate today st).location = st.location ∧
    (ppDate today st).explicitLoc = st.explicitLoc ∧
    (ppDate today st).confS = st.confS ∧ (ppDate today st).confT = st.confT ∧
    (ppDate today st).confL = st.confL ∧
    (ppDate today st).location_auto_selected = st.location_auto_selected ∧
    (ppDate today st).service_auto_selected = st.service_auto_selected := by
  unfold ppDate
  split <;> exact ⟨rfl, rfl, rfl, rfl, rfl, rfl, rfl, rfl, rfl⟩

lemma ppDate_char (today : PyDate) (st : BState) :
    (¬ truthyS st.date = true →
      (ppDate today st).date = some (isoformat today) ∧
      (ppDate today st).confD = 0.6) ∧
    (truthyS st.date = true → ppDate today st = st) := by
  unfold ppDate
  by_cases h : truthyS st.date = true
  · rw [if_neg (by simpa using h)]
    exact ⟨fun hc => absurd h hc, fun _ => rfl⟩
  · rw [if_pos (by simpa using h)]
    exact ⟨fun _ => ⟨rfl, rfl⟩, fun hc => absurd hc h⟩

lemma ppTime_keep
    (fna : String → String → Except Unit (Option (String × List String)))
    (st : BState) :
    (ppTime fna st).service = st.service ∧ (ppTime fna st).date = st.date ∧
    (ppTime fna st).location = st.location ∧
    (ppTime fna st).explicitLoc = st.explicitLoc ∧
    (ppTime fna st).confS = st.confS ∧ (ppTime fna st).confD = st.confD ∧
    (ppTime fna st).confL = st.confL ∧
    (ppTime fna st).location_auto_selected = st.location_auto_selected ∧
    (ppTime fna st).service_auto_selected = st.service_auto_selected := by
  unfold ppTime
  split
  · split
    · split <;> exact ⟨rfl, rfl, rfl, rfl, rfl, rfl, rfl, rfl, rfl⟩
    · exact ⟨rfl, rfl, rfl, rfl, rfl, rfl, rfl, rfl, rfl⟩
  · exact ⟨rfl, rfl, rfl, rfl, rfl, rfl, rfl, rfl, rfl⟩

lemma ppTime_char
    (fna : String → String → Except Unit (Option (String × List String)))
    (st : BState) :
    (¬ truthyS st.time = true → truthyS st.service = true →
      (∀ c rest, fna (st.service.getD "") (st.date.getD "") = .ok (some (c, rest)) →
        (ppTime fna st).time = some c ∧ (ppTime fna st).confT = 0.75) ∧
      (fna (st.service.getD "") (st.date.getD "") = .ok none →
        (ppTime fna st).time = some "10:00 AM" ∧ (ppTime fna st).confT = 0.6) ∧
      (∀ e, fna (st.service.getD "") (st.date.getD "") = .error e →
        (ppTime fna st).time = some "10:00 AM" ∧ (ppTime fna st).confT = 0.6)) ∧
    (truthyS st.time = true → ppTime fna st = st) := by
  unfold ppTime
  by_cases h : truthyS st.time = true
  · rw [if_neg (by simpa using h)]
    exact ⟨fun hc => absurd h hc, fun _ => rfl⟩
  · rw [if_pos (by simpa using h)]
    refine ⟨fun _ hsvc => ?_, fun hc => absurd hc h⟩
    rw [if_pos hsvc]
    refine ⟨?_, ?_, ?_⟩
    · intro c rest hf
      rw [hf]
      exact ⟨rfl, rfl⟩
    · intro hf
      rw [hf]
      exact ⟨rfl, rfl⟩
    · intro e hf
      rw [hf]
      exact ⟨rfl, rfl⟩

lemma ppLoc_keep (st : BState) :
    (ppLoc st).service = st.service ∧ (ppLoc st).date = st.date ∧
    (ppLoc st).time = st.time ∧ (ppLoc st).explicitLoc = st.explicitLoc ∧
    (ppLoc st).confS = st.confS ∧ (ppLoc st).confD = st.confD ∧
    (ppLoc st).confT = st.confT ∧
    (ppLoc st).service_auto_selected = st.service_auto_selected := by
  unfold ppLoc
  split
  · split <;> exact ⟨rfl, rfl, rfl, rfl, rfl, rfl, rfl, rfl⟩
  · exact ⟨rfl, rfl, rfl, rfl, rfl, rfl, rfl, rfl⟩

lemma ppLoc_char (st : BState) :
    (¬ truthyS st.location = true →
      (truthyS st.explicitLoc = true →
        (ppLoc st).location = st.explicitLoc ∧ (ppLoc st).confL = 0.8 ∧
        (ppLoc st).location_auto_selected = st.location_auto_selected) ∧
      (¬ truthyS st.explicitLoc = true →
        (ppLoc st).location = some "bangalore" ∧ (ppLoc st).confL = 0.5 ∧
        (ppLoc st).location_auto_selected = true)) ∧
    (truthyS st.location = true → ppLoc st = st) := by
  unfold ppLoc
  by_cases h : truthyS st.location = true
  · rw [if_neg (by simpa using h)]
    exact ⟨fun hc => absurd h hc, fun _ => rfl⟩
  · rw [if_pos (by simpa using h)]
    refine ⟨fun _ => ⟨?_, ?_⟩, fun hc => absurd hc h⟩
    · intro he
      rw [if_pos he]
      exact ⟨rfl, rfl, rfl⟩
    · intro he
      rw [if_neg he]
      exact ⟨rfl, rfl, rfl⟩

/-- C3: the delegation default post-pass.  `extract_booking_state` is the
turn loop followed by the post-pass; the post-pass changes nothing when
`delegated` is false; when `delegated` is true every still-unset field is
filled: service → `"facial"` at 0.6 with `service_auto_selected`; date → the
reference date's ISO form at 0.6; time → the first free slot from
`find_next_available` for the resolved service/date at 0.75, falling back to
`"10:00 AM"` at 0.6 both when no slot is found and when the lookup raises;
location → the stashed free-form `in <words>` candidate at 0.8 when one was
seen (non-empty), else the first known city (`"bangalore"`) at 0.5 with
`location_auto_selected`; already-set fields and their flags are untouched
(and no auto-selected flags exist for date or time). -/
theorem C3_delegation_defaults
    (fna : String → String → Except Unit (Option (String × List String)))
    (today : PyDate) (msgs : List String) (st : BState)
    (h : processTurns today initState msgs = .ok st) :
    extract_booking_state fna today msgs = .ok (postPass fna today st) ∧
    (st.delegated = false → postPass fna today st = st) ∧
    (st.delegated = true →
      (¬ truthyS st.service = true →
        (postPass fna today st).service = some "facial" ∧
        (postPass fna today st).confS = 0.6 ∧
        (postPass fna today st).service_auto_selected = true) ∧
      (truthyS st.service = true →
        (postPass fna today st).service = st.service ∧
        (postPass fna today st).service_auto_selected =
          st.service_auto_selected) ∧
      (¬ truthyS st.date = true →
        (postPass fna today st).date = some (isoformat today) ∧
        (postPass fna today st).confD = 0.6) ∧
      (truthyS st.date = true → (postPass fna today st).date = st.date) ∧
      (¬ truthyS st.time = true →
        (∀ c rest,
          fna (resolvedService st) (resolvedDate today st) = .ok (some (c, rest)) →
          (postPass fna today st).time = some c ∧
          (postPass fna today st).confT = 0.75) ∧
        (fna (resolvedService st) (resolvedDate today st) = .ok none →
          (postPass fna today st).time = some "10:00 AM" ∧
          (postPass fna today st).confT = 0.6) ∧
        (∀ e, fna (resolvedService st) (resolvedDate today st) = .error e →
          (postPass fna today st).time = some "10:00 AM" ∧
          (postPass fna today st).confT = 0.6)) ∧
      (truthyS st.time = true → (postPass fna today st).time = st.time) ∧
      (¬ truthyS st.location = true →
        (truthyS st.explicitLoc = true →
          (postPass fna today st).location = st.explicitLoc ∧
          (postPass fna today st).confL = 0.8 ∧
          (postPass fna today st).location_auto_selected =
            st.location_auto_selected) ∧
        (¬ truthyS st.explicitLoc = true →
          (postPass fna today st).location = some "bangalore" ∧
          (postPass fna today st).confL = 0.5 ∧
          (postPass fna today st).location_auto_selected = true)) ∧
      (truthyS st.location = true →
        (postPass fna today st).location = st.location)) := by
  refine ⟨?_, ?_, ?_⟩
  · unfold extract_booking_state
    rw [h]
  · intro hdel
    unfold postPass
    rw [if_neg (by simp [hdel])]
  · intro hdel
    have hpp : postPass fna today st = ppLoc (ppTime fna (ppDate today (ppService st))) := by
      unfold postPass
      rw [if_pos hdel]
    obtain ⟨k1d, k1t, k1l, k1e, k1cd, k1ct, k1cl, k1la⟩ := ppService_keep st
    obtain ⟨k2s, k2t, k2l, k2e, k2cs, k2ct, k2cl, k2la, k2sa⟩ := ppDate_keep today (ppService st)
    obtain ⟨k3s, k3d, k3l, k3e, k3cs, k3cd, k3cl, k3la, k3sa⟩ := ppTime_keep fna (ppDate today (ppService st))
    obtain ⟨k4s, k4d, k4t, k4e, k4cs, k4cd, k4ct, k4sa⟩ := ppLoc_keep (ppTime fna (ppDate today (ppService st)))
    -- service is always truthy after its default
    have hs1svc : truthyS (ppService st).service = true := by
      by_cases hsv : truthyS st.service = true
      · rw [(ppService_char st).2 hsv]; exact hsv
      · rw [((ppService_char st).1 hsv).1]; decide
    -- the availability call arguments
    have hargS : (ppDate today (ppService st)).service.getD "" = resolvedService st := by
      unfold resolvedService
      by_cases hsv : truthyS st.service = true
      · rw [k2s, (ppService_char st).2 hsv, if_pos hsv]
      · rw [k2s, ((ppService_char st).1 hsv).1, if_neg hsv]
        rfl
    have hargD : (ppDate today (ppService st)).date.getD "" = resolvedDate today st := by
      unfold resolvedDate
      by_cases hdt : truthyS st.date = true
      · rw [(ppDate_char today (ppService st)).2 (by rw [k1d]; exact hdt), k1d, if_pos hdt]
      · rw [((ppDate_char today (ppService st)).1 (by rw [k1d]; exact hdt)).1, if_neg hdt]
        rfl
    refine ⟨?_, ?_, ?_, ?_, ?_, ?_, ?_, ?_⟩
    · intro hsv
      obtain ⟨hv, hc, ha⟩ := (ppService_char st).1 hsv
      refine ⟨?_, ?_, ?_⟩
      · rw [hpp, k4s, k3s, k2s, hv]
      · rw [hpp, k4cs, k3cs, k2cs, hc]
      · rw [hpp, k4sa, k3sa, k2sa, ha]
    · intro hsv
      have he := (ppService_char st).2 hsv
      constructor
      · rw [hpp, k4s, k3s, k2s, he]
      · rw [hpp, k4sa, k3sa, k2sa, he]
    · intro hdt
      have hd1 : ¬ truthyS (ppService st).date = true := by rw [k1d]; exact hdt
      obtain ⟨hv, hc⟩ := (ppDate_char today (ppService st)).1 hd1
      exact ⟨by rw [hpp, k4d, k3d, hv], by rw [hpp, k4cd, k3cd, hc]⟩
    · intro hdt
      have he := (ppDate_char today (ppService st)).2 (by rw [k1d]; exact hdt)
      rw [hpp, k4d, k3d, he, k1d]
    · intro htm
      have ht2 : ¬ truthyS (ppDate today (ppService st)).time = true := by rw [k2t, k1t]; exact htm
      have hs2svc : truthyS (ppDate today (ppService st)).service = true := by rw [k2s]; exact hs1svc
      obtain ⟨hsome, hnone, herr⟩ := (ppTime_char fna (ppDate today (ppService st))).1 ht2 hs2svc
      rw [hargS, hargD] at hsome hnone herr
      refine ⟨?_, ?_, ?_⟩
      · intro c rest hf
        obtain ⟨hv, hc⟩ := hsome c rest hf
        exact ⟨by rw [hpp, k4t, hv], by rw [hpp, k4ct, hc]⟩
      · intro hf
        obtain ⟨hv, hc⟩ := hnone hf
        exact ⟨by rw [hpp, k4t, hv], by rw [hpp, k4ct, hc]⟩
      · intro e hf
        obtain ⟨hv, hc⟩ := herr e hf
        exact ⟨by rw [hpp, k4t, hv], by rw [hpp, k4ct, hc]⟩
    · intro htm
      have he := (ppTime_char fna (ppDate today (ppService st))).2 (by rw [k2t, k1t]; exact htm)
      rw [hpp, k4t, he, k2t, k1t]
    · intro hlc
      have hl3 : ¬ truthyS (ppTime fna (ppDate today (ppService st))).location = true := by rw [k3l, k2l, k1l]; exact hlc
      obtain ⟨hyes, hno⟩ := (ppLoc_char (ppTime fna (ppDate today (ppService st)))).1 hl3
      have he3 : (ppTime fna (ppDate today (ppService st))).explicitLoc = st.explicitLoc := by rw [k3e, k2e, k1e]
      refine ⟨?_, ?_⟩
      · intro hex
        obtain ⟨hv, hc, ha⟩ := hyes (by rw [he3]; exact hex)
        exact ⟨by rw [hpp, hv, he3], by rw [hpp, hc],
          by rw [hpp, ha, k3la, k2la, k1la]⟩
      · intro hex
        obtain ⟨hv, hc, ha⟩ := hno (by rw [he3]; exact hex)
        exact ⟨by rw [hpp, hv], by rw [hpp, hc], by rw [hpp, ha]⟩
    · intro hlc
      have he := (ppLoc_char (ppTime fna (ppDate today (ppService st)))).2 (by rw [k3l, k2l, k1l]; exact hlc)
      rw [hpp, he, k3l, k2l, k1l]

theorem C3_witness :
    ∃ st,
      processTurns ⟨2026, 10, 12⟩ initState ["book it in goa please"] = .ok st ∧
      st.delegated = true ∧
      extract_booking_state (fnaOf []) ⟨2026, 10, 12⟩ ["book it in goa please"] =
        .ok (postPass (fnaOf []) ⟨2026, 10, 12⟩ st) ∧
      (postPass (fnaOf []) ⟨2026, 10, 12⟩ st).service = some "facial" ∧
      (postPass (fnaOf []) ⟨2026, 10, 12⟩ st).service_auto_selected = true ∧
      (postPass (fnaOf []) ⟨2026, 10, 12⟩ st).date = some "2026-10-12" ∧
      (postPass (fnaOf []) ⟨2026, 10, 12⟩ st).time = some "10:00 AM" ∧
      (postPass (fnaOf []) ⟨2026, 10, 12⟩ st).confT = 0.75 ∧
      (postPass (fnaOf []) ⟨2026, 10, 12⟩ st).location = st.explicitLoc := by
  refine ⟨_, rfl, by decide, ?_, ?_, ?_, ?_, ?_, ?_, ?_⟩
  · exact (C3_delegation_defaults (fnaOf []) ⟨2026, 10, 12⟩
      ["book it in goa please"] _ rfl).1
  · exact (((C3_delegation_defaults (fnaOf []) ⟨2026, 10, 12⟩
      ["book it in goa please"] _ rfl).2.2 (by decide)).1 (by decide)).1
  · exact (((C3_delegation_defaults (fnaOf []) ⟨2026, 10, 12⟩
      ["book it in goa please"] _ rfl).2.2 (by decide)).1 (by decide)).2.2
  · exact (((C3_delegation_defaults (fnaOf []) ⟨2026, 10, 12⟩
      ["book it in goa please"] _ rfl).2.2 (by decide)).2.2.1 (by decide)).1
  · exact ((((C3_delegation_defaults (fnaOf []) ⟨2026, 10, 12⟩
      ["book it in goa please"] _ rfl).2.2 (by decide)).2.2.2.2.1 (by decide)).1
      "10:00 AM" ["10:00 AM", "11:00 AM", "3:00 PM"] rfl).1
  · exact ((((C3_delegation_defaults (fnaOf []) ⟨2026, 10, 12⟩
      ["book it in goa please"] _ rfl).2.2 (by decide)).2.2.2.2.1 (by decide)).1
      "10:00 AM" ["10:00 AM", "11:00 AM", "3:00 PM"] rfl).2
  · exact ((((C3_delegation_defaults (fnaOf []) ⟨2026, 10, 12⟩
      ["book it in goa please"] _ rfl).2.2 (by decide)).2.2.2.2.2.2.1
      (by decide)).1 (by decide)).1
